import Mathlib

/-!
Verification of the response-interpretation and session-pipeline core of the
ai-vision-debug MCP server (src/index.ts).

The TypeScript source is shallowly embedded below.  JavaScript strings are
modelled as `List Char` (wrapped into `String` at record boundaries),
JavaScript numbers appearing in parsed data as exact rationals plus an
explicit `nan` constructor where `parseInt`/`parseFloat` can fail, and
JavaScript `null`/`undefined` as `Option.none`.  The floating-point
arithmetic of the luminance / contrast computations is modelled exactly over
`ℚ`/`ℝ`.  The external `wcag-contrast` library is modelled from the spec
(see `wcagHexRatioR`); everything else is translated from src/index.ts.
-/

/-! ## JavaScript-style string primitives over `List Char` -/

/-- Whitespace test used for the model of JavaScript `trim` / `\s`. -/
def jsWs (c : Char) : Bool := c.isWhitespace

/-- Model of JavaScript `String.prototype.trim` (both ends). -/
def jsTrim (s : List Char) : List Char :=
  ((s.dropWhile jsWs).reverse.dropWhile jsWs).reverse

/-- Model of JavaScript `String.prototype.toLowerCase` (ASCII range). -/
def toLowerL (s : List Char) : List Char := s.map Char.toLower

/-- Fuelled worker for `splitOnL`; fuel `s.length` always suffices. -/
def splitOnAuxL (sep : List Char) : Nat → List Char → List Char → List (List Char)
  | _, acc, [] => [acc.reverse]
  | 0, acc, rest => [acc.reverse ++ rest]
  | Nat.succ f, acc, c :: cs =>
    if sep.isPrefixOf (c :: cs) then
      acc.reverse :: splitOnAuxL sep f [] (List.drop sep.length (c :: cs))
    else
      splitOnAuxL sep f (c :: acc) cs

/-- Model of JavaScript `String.prototype.split` with a non-empty literal
separator: split at every occurrence, scanning left to right. -/
def splitOnL (sep s : List Char) : List (List Char) :=
  splitOnAuxL sep s.length [] s

/-- Worker for `indexOfSub`. -/
def indexOfSubAux (pat : List Char) : Nat → List Char → Option Nat
  | i, [] => if pat = [] then some i else none
  | i, c :: cs => if pat.isPrefixOf (c :: cs) then some i else indexOfSubAux pat (i+1) cs

/-- Model of JavaScript `String.prototype.indexOf` for a literal pattern:
index of the first occurrence, `none` when absent. -/
def indexOfSub (pat s : List Char) : Option Nat := indexOfSubAux pat 0 s

/-- The inner text of the first `startM` marker followed by the first later
`endM` marker; models the lazy regex
`startM([\s\S]*?)endM` from the description extraction. -/
def betweenMarkers (startM endM s : List Char) : Option (List Char) :=
  match splitOnL startM s with
  | _ :: rest :: more =>
    let after := List.intercalate startM (rest :: more)
    (match splitOnL endM after with
     | first :: _ :: _ => some first
     | _ => none)
  | _ => none

/-- Model of the `s.substring(i + startM.length, j).trim()` section extraction used by the
Color Palette / Typography Summary / Visual Audit sections: both markers
located with `indexOf`, requiring the end index to exceed the start index. -/
def sectionBetween (startM endM s : List Char) : Option (List Char) :=
  match indexOfSub startM s, indexOfSub endM s with
  | some i, some j =>
    if i < j then
      some (jsTrim ((s.drop (i + startM.length)).take (j - (i + startM.length))))
    else none
  | _, _ => none

/-! ## JavaScript numbers -/

/-- Result of JavaScript `parseInt`: an integer or `NaN`. -/
inductive JsNum where
  | nan : JsNum
  | int : ℤ → JsNum
  deriving DecidableEq, Repr

/-- A JavaScript value that is either a number or a string, as produced by the
numeric coercion in `extractValue` (number on success, cleaned string on
failure). -/
inductive JVal where
  | num : ℚ → JVal
  | str : String → JVal
  deriving DecidableEq, Repr

def hexDigitVal (c : Char) : ℕ :=
  if '0' ≤ c ∧ c ≤ '9' then c.toNat - '0'.toNat
  else if 'a' ≤ c ∧ c ≤ 'f' then c.toNat - 'a'.toNat + 10
  else if 'A' ≤ c ∧ c ≤ 'F' then c.toNat - 'A'.toNat + 10
  else 0

def isHexDigitChar (c : Char) : Bool :=
  ('0' ≤ c ∧ c ≤ '9') ∨ ('a' ≤ c ∧ c ≤ 'f') ∨ ('A' ≤ c ∧ c ≤ 'F')

/-- Shared digit-run accumulator. -/
def digitsVal (base : ℕ) (ds : List Char) : ℕ :=
  ds.foldl (fun a c => base * a + hexDigitVal c) 0

/-- Sign prefix: returns the sign and the remaining characters. -/
def jsSign (s : List Char) : ℤ × List Char :=
  match s with
  | [] => (1, [])
  | c :: cs => if c = '-' then (-1, cs) else if c = '+' then (1, cs) else (1, c :: cs)

/-- Model of JavaScript `parseInt(s, 10)`: skip leading whitespace, optional
sign, then the longest run of decimal digits; `NaN` when that run is empty. -/
def parseIntJS (s : List Char) : JsNum :=
  let s1 := s.dropWhile jsWs
  let (sg, s2) := jsSign s1
  let ds := s2.takeWhile Char.isDigit
  if ds = [] then .nan else .int (sg * (digitsVal 10 ds : ℤ))

/-- Model of JavaScript `parseInt(s, 16)`: skip leading whitespace, optional
sign, optional `0x`/`0X` prefix, then the longest run of hex digits. -/
def parseIntHexJS (s : List Char) : JsNum :=
  let s1 := s.dropWhile jsWs
  let (sg, s2) := jsSign s1
  let s3 : List Char := match s2 with
    | c0 :: c1 :: cs => if c0 = '0' ∧ (c1 = 'x' ∨ c1 = 'X') then cs else c0 :: c1 :: cs
    | other => other
  let ds := s3.takeWhile isHexDigitChar
  if ds = [] then .nan else .int (sg * (digitsVal 16 ds : ℤ))

/-- Model of JavaScript `parseFloat`: skip leading whitespace, optional sign,
decimal digits with an optional fraction and exponent, parsing the longest
valid prefix; `none` models `NaN`.  (`Infinity` literals are not modelled.) -/
def parseFloatJS (s : List Char) : Option ℚ :=
  let s1 := s.dropWhile jsWs
  let (sg, s2) := jsSign s1
  let ip := s2.takeWhile Char.isDigit
  let s3 := s2.drop ip.length
  let (fp, s4) := match s3 with
    | '.' :: cs => (cs.takeWhile Char.isDigit, cs.drop (cs.takeWhile Char.isDigit).length)
    | cs => ([], cs)
  if ip = [] ∧ fp = [] then none
  else
    let mant : ℚ := (digitsVal 10 ip : ℚ) + (digitsVal 10 fp : ℚ) / ((10 : ℚ) ^ fp.length)
    let expo : ℤ := match s4 with
      | 'e' :: cs =>
        (let (esg, cs2) := jsSign cs
         let eds := cs2.takeWhile Char.isDigit
         if eds = [] then 0 else esg * (digitsVal 10 eds : ℤ))
      | 'E' :: cs =>
        (let (esg, cs2) := jsSign cs
         let eds := cs2.takeWhile Char.isDigit
         if eds = [] then 0 else esg * (digitsVal 10 eds : ℤ))
      | _ => 0
    some ((sg : ℚ) * mant * (10 : ℚ) ^ expo)

/-! ## The nested-object value extractor

Model of the per-key pattern
`(?:^|,)\s*KEY\s*:\s*(?:"([^"]*)"|'([^']*)'|([^,\}\{\s]+))` with the `i`
flag, applied with JavaScript leftmost-match semantics, from
`parseDetailedGeminiResponse`. -/

/-- Case-insensitive literal match of `key`; returns the remaining input. -/
def matchKeyCI : List Char → List Char → Option (List Char)
  | [], s => some s
  | _ :: _, [] => none
  | k :: ks, c :: cs => if c.toLower = k.toLower then matchKeyCI ks cs else none

/-- The single-quote character (codepoint 39). -/
def squote : Char := Char.ofNat 39

/-- One quoted alternative: an opening quote, the capture `[^q]*`, and a
mandatory closing quote. -/
def quotedAlt (q : Char) : List Char → Option (List Char)
  | [] => none
  | c :: rest =>
    if c = q then
      (let inner := rest.takeWhile (· ≠ q)
       if rest.drop inner.length ≠ [] then some inner else none)
    else none

/-- The bare alternative `([^,\}\{\s]+)`: a maximal non-empty run of
characters that are not commas, braces or whitespace. -/
def bareAlt (s : List Char) : Option (List Char) :=
  let bv := s.takeWhile (fun c => ¬(c = ',' ∨ c = '}' ∨ c = '{' ∨ jsWs c))
  if bv = [] then none else some bv

/-- The value alternation, tried in the regex's order (double-quoted,
single-quoted, bare). -/
def matchValueAlt (s : List Char) : Option (List Char) :=
  match quotedAlt '"' s with
  | some v => some v
  | none =>
    match quotedAlt squote s with
    | some v => some v
    | none => bareAlt s

/-- Attempt the pattern tail `\s*KEY\s*:\s*VALUE` at one anchor position.
`some none` is a successful match whose capture is empty (which the
source's `match[1] || match[2] || match[3] || null` chain turns into
`null`); `none` is a failed attempt (the scan continues). -/
def matchAfterAnchor (key s : List Char) : Option (Option (List Char)) :=
  match matchKeyCI key (s.dropWhile jsWs) with
  | none => none
  | some s2 =>
    match s2.dropWhile jsWs with
    | ':' :: s4 =>
      (match matchValueAlt (s4.dropWhile jsWs) with
       | some v => some (if v = [] then none else some v)
       | none => none)
    | _ => none

/-- Scan for the `,` branch of `(?:^|,)` left to right. -/
def extractScan (key : List Char) : List Char → Option (Option (List Char))
  | [] => none
  | c :: rest =>
    if c = ',' then
      match matchAfterAnchor key rest with
      | some r => some r
      | none => extractScan key rest
    else extractScan key rest

/-- Leftmost match of the whole pattern over `content`: the `^` branch at
position 0 first, then after each comma.  Returns the captured text, where
`none` models the `null` that the source returns both on no match and on an
empty capture. -/
def extractRaw (key content : List Char) : Option (List Char) :=
  match matchAfterAnchor key content with
  | some r => r
  | none =>
    match extractScan key content with
    | some r => r
    | none => none

/-- Post-processing shared by all sub-keys: trim, map a literal
(case-insensitive) `null` to absent, and strip one leading `~`. -/
def extractClean (key content : List Char) : Option (List Char) :=
  match extractRaw key content with
  | none => none
  | some v0 =>
    let v1 := jsTrim v0
    if toLowerL v1 = "null".toList then none
    else some (match v1 with | '~' :: tl => tl | _ => v1)

/-- Model of `replace(/px$/i, '')`: strip one trailing `px` (case-insensitive). -/
def stripPxSuffix (v : List Char) : List Char :=
  match v.reverse with
  | x :: p :: tl => if (x = 'x' ∨ x = 'X') ∧ (p = 'p' ∨ p = 'P') then tl.reverse else v
  | _ => v

/-- Extraction for the numeric sub-keys
(`x,y,width,height,fontSize,borderWidth,borderRadius`): coerce with
`parseFloat`, falling back to the trimmed string with a trailing unit
suffix stripped. -/
def extractNumKey (key content : List Char) : Option JVal :=
  (extractClean key content).map fun v =>
    match parseFloatJS v with
    | some q => .num q
    | none => .str (String.mk (jsTrim (stripPxSuffix v)))

/-- Extraction for string-valued sub-keys. -/
def extractStrKey (key content : List Char) : Option String :=
  (extractClean key content).map String.mk

/-! ## Data model (§3): value records, elements, analysis results -/

structure Geometry where
  x : Option JVal := none
  y : Option JVal := none
  width : Option JVal := none
  height : Option JVal := none
  deriving DecidableEq, Repr

structure Typography where
  fontFamily : Option String := none
  fontSize : Option JVal := none
  fontWeight : Option String := none
  color : Option String := none
  deriving DecidableEq, Repr

structure Appearance where
  backgroundColor : Option String := none
  borderColor : Option String := none
  borderWidth : Option JVal := none
  borderRadius : Option JVal := none
  deriving DecidableEq, Repr

structure UIElement where
  id : JsNum
  type : String
  label : Option String := none
  textContent : Option String := none
  geometry : Geometry := {}
  typography : Option Typography := none
  appearance : Option Appearance := none
  state : String := "active"
  description : Option String := none
  contrastRatio : Option ℚ := none
  deriving DecidableEq, Repr

/-! ## Element-block parsing -/

/-- The in-progress record built line by line for one element block
(`elementData`); `none` covers both a key never seen and a key set to
`null`, which the acceptance step treats identically. -/
structure EData where
  id : Option JsNum := none
  type : Option String := none
  label : Option String := none
  textContent : Option String := none
  state : Option String := none
  description : Option String := none
  geometry : Option Geometry := none
  typography : Option Typography := none
  appearance : Option Appearance := none
  deriving DecidableEq, Repr

/-- Model of `value.startsWith('{') && value.endsWith('}')`, yielding the inner text. -/
def braceContent (v : List Char) : Option (List Char) :=
  match v with
  | '{' :: rest => if rest ≠ [] ∧ rest.getLast? = some '}' then some rest.dropLast else none
  | _ => none

/-- Nested `geometry` object: extract each sub-key, then collapse to absent
when every extracted sub-key is absent. -/
def parseGeometryVal (vOpt : Option (List Char)) : Option Geometry :=
  let g : Geometry := match vOpt.bind braceContent with
    | some c =>
      { x := extractNumKey "x".toList c, y := extractNumKey "y".toList c,
        width := extractNumKey "width".toList c, height := extractNumKey "height".toList c }
    | none => {}
  if g = ({} : Geometry) then none else some g

/-- Nested `typography` object, with the same all-absent collapse. -/
def parseTypographyVal (vOpt : Option (List Char)) : Option Typography :=
  let t : Typography := match vOpt.bind braceContent with
    | some c =>
      { fontFamily := extractStrKey "fontFamily".toList c,
        fontSize := extractNumKey "fontSize".toList c,
        fontWeight := extractStrKey "fontWeight".toList c,
        color := extractStrKey "color".toList c }
    | none => {}
  if t = ({} : Typography) then none else some t

/-- Nested `appearance` object, with the same all-absent collapse. -/
def parseAppearanceVal (vOpt : Option (List Char)) : Option Appearance :=
  let a : Appearance := match vOpt.bind braceContent with
    | some c =>
      { backgroundColor := extractStrKey "backgroundColor".toList c,
        borderColor := extractStrKey "borderColor".toList c,
        borderWidth := extractNumKey "borderWidth".toList c,
        borderRadius := extractNumKey "borderRadius".toList c }
    | none => {}
  if a = ({} : Appearance) then none else some a

/-- Split a trimmed line at its first `:` (JavaScript `indexOf`); lines
without a colon are skipped by the caller. -/
def splitFirstColon (t : List Char) : Option (List Char × List Char) :=
  let pre := t.takeWhile (· ≠ ':')
  if pre.length = t.length then none else some (pre, t.drop (pre.length + 1))

/-- Tokenization of one line of an element block: skip blank lines and the
end-marker line, skip lines without a colon, and return the trimmed key
and the trimmed value. -/
def lineKV (line : List Char) : Option (List Char × List Char) :=
  let t := jsTrim line
  if t = [] ∨ t = "--- Element End ---".toList then none
  else match splitFirstColon t with
    | none => none
    | some (k0, v0) => some (jsTrim k0, jsTrim v0)

/-- The keys recognised by the `switch` of the per-line loop. -/
inductive EKey where
  | id | type | label | textContent | state | description
  | geometry | typography | appearance | other
  deriving DecidableEq, Repr

/-- The `switch (key)` dispatch (exact, case-sensitive key match). -/
def keyOf (k : List Char) : EKey :=
  if k = "id".toList then .id
  else if k = "type".toList then .type
  else if k = "label".toList then .label
  else if k = "textContent".toList then .textContent
  else if k = "state".toList then .state
  else if k = "description".toList then .description
  else if k = "geometry".toList then .geometry
  else if k = "typography".toList then .typography
  else if k = "appearance".toList then .appearance
  else .other

/-- The `switch (key)` body of the per-line loop, after the literal
(case-insensitive) `null` value has been mapped to absent. -/
def applyKV (d : EData) (k vRaw : List Char) : EData :=
  let v : Option (List Char) := if toLowerL vRaw = "null".toList then none else some vRaw
  match keyOf k with
  | .id =>
    { d with id := match v with
        | none => none
        | some vv => if vv = [] then none else some (parseIntJS vv) }
  | .type => { d with type := v.map String.mk }
  | .label => { d with label := v.map String.mk }
  | .textContent => { d with textContent := v.map String.mk }
  | .state => { d with state := v.map String.mk }
  | .description => { d with description := v.map String.mk }
  | .geometry => { d with geometry := parseGeometryVal v }
  | .typography => { d with typography := parseTypographyVal v }
  | .appearance => { d with appearance := parseAppearanceVal v }
  | .other => d

/-- One iteration of the per-line loop of the element-block parser. -/
def processLine (d : EData) (line : List Char) : EData :=
  match lineKV line with
  | none => d
  | some (k, v) => applyKV d k v

/-- JavaScript `o || dflt` for string-valued fields: `null`, `undefined`
and the empty string all fall to the default. -/
def jsOrStr (o : Option String) (dflt : String) : String :=
  match o with
  | some s => if s = "" then dflt else s
  | none => dflt

/-- The acceptance step at the end of one element block: the element is kept
only when `elementData.id != null`; missing nested objects are filled with
all-absent defaults and an all-absent `appearance` is collapsed back to
absent. -/
def acceptElement (d : EData) : Option UIElement :=
  match d.id with
  | none => none
  | some idv =>
    let app0 := d.appearance.getD {}
    some { id := idv, type := jsOrStr d.type "Unknown", label := d.label,
           textContent := d.textContent, geometry := d.geometry.getD {},
           typography := some (d.typography.getD {}),
           appearance := if app0 = ({} : Appearance) then none else some app0,
           state := jsOrStr d.state "active",
           description := d.description, contrastRatio := none }

/-- Parse one element block: fold the per-line loop over `block.split('\n')`
and run the acceptance step. -/
def parseElementBlock (block : List Char) : Option UIElement :=
  acceptElement ((splitOnL ['\n'] block).foldl processLine {})

/-! ## Color Palette section -/

/-- Association-list insertion modelling JavaScript object assignment
(overwrite an existing key, else append). -/
def insertAssoc {β : Type} : List (String × β) → String → β → List (String × β)
  | [], k, v => [(k, v)]
  | (k0, v0) :: tl, k, v =>
    if k0 = k then (k, v) :: tl else (k0, v0) :: insertAssoc tl k v

/-- Association-list lookup modelling JavaScript property access. -/
def lookupAssoc {β : Type} : List (String × β) → String → Option β
  | [], _ => none
  | (k0, v) :: tl, k => if k0 = k then some v else lookupAssoc tl k

/-- Model of `replace(/^\\[|\\]$/g, '')` from the palette value cleaning.  Because the
source doubly escapes the backslashes, the pattern matches only a string
that is exactly a backslash followed by `|` or by a backslash — so the
surrounding `[`/`]` brackets are NOT stripped from palette values. -/
def bracketStrip (s : List Char) : List Char :=
  if s = ['\\', '|'] ∨ s = ['\\', '\\'] then [] else s

/-- Model of `replace(/['"]/g, '')`: remove every quote character. -/
def dequoteL (s : List Char) : List Char :=
  s.filter (fun c => ¬(c = '"' ∨ c = squote))

/-- One line of the Color Palette section:
`Key: comma-separated-values`, keeping a line only when both halves of the
first-colon split are non-empty, and filtering out empty and `null`
entries. -/
def paletteStep (acc : List (String × List String)) (line : List Char) :
    List (String × List String) :=
  match splitOnL [':'] line with
  | k :: vs :: _ =>
    if k ≠ [] ∧ vs ≠ [] then
      (let values := (((splitOnL [','] (bracketStrip (jsTrim vs))).map
          (fun v => dequoteL (jsTrim v))).filter
          (fun v => v ≠ [] ∧ toLowerL v ≠ "null".toList)).map String.mk
       insertAssoc acc (String.mk (jsTrim k)) values)
    else acc
  | _ => acc

def parsePaletteSection (raw : List Char) : Option (List (String × List String)) :=
  (sectionBetween "--- Color Palette Start ---".toList
      "--- Color Palette End ---".toList raw).map
    fun sec => (splitOnL ['\n'] sec).foldl paletteStep []

/-! ## Typography Summary section -/

/-- One `key: value` pair of a typography summary object, split naively on
`:` (kept only when the split yields exactly two parts), cleaned with
`replace(/['"px]/g, '')`, with `fontSize` coerced to a number when
possible and a remaining literal `null` mapped to absent. -/
def typoPairStep (obj : List (String × Option JVal)) (pair : List Char) :
    List (String × Option JVal) :=
  match splitOnL [':'] pair with
  | [k, v] =>
    let objKey := String.mk (jsTrim k)
    let cleaned := (jsTrim v).filter
      (fun c => ¬(c = '"' ∨ c = squote ∨ c = 'p' ∨ c = 'x'))
    let v1 : JVal :=
      if objKey = "fontSize" then
        match parseFloatJS cleaned with
        | some n => .num n
        | none => .str (String.mk cleaned)
      else .str (String.mk cleaned)
    let objValue : Option JVal :=
      match v1 with
      | .str s => if toLowerL s.toList = "null".toList then none else some v1
      | .num _ => some v1
    insertAssoc obj objKey objValue
  | _ => obj

/-- One line of the Typography Summary section: lines starting with `-`
carry one brace-delimited object whose comma-separated pairs are folded
with `typoPairStep`; an object with no keys is dropped. -/
def typoLineStep (acc : List (List (String × Option JVal))) (line : List Char) :
    List (List (String × Option JVal)) :=
  match jsTrim line with
  | '-' :: rest =>
    (let objStr := jsTrim rest
     let obj := match braceContent objStr with
       | some inner => (splitOnL [','] inner).foldl typoPairStep []
       | none => []
     if obj ≠ [] then acc ++ [obj] else acc)
  | _ => acc

def parseTypoSection (raw : List Char) : Option (List (List (String × Option JVal))) :=
  (sectionBetween "--- Typography Summary Start ---".toList
      "--- Typography Summary End ---".toList raw).map
    fun sec => (splitOnL ['\n'] sec).foldl typoLineStep []

/-! ## Visual Audit section -/

structure MetricData where
  assessment : Option String := none
  details : Option String := none
  deriving DecidableEq, Repr

structure AuditData where
  accessibility : List (String × MetricData) := []
  consistency : List (String × MetricData) := []
  layout : List (String × MetricData) := []
  clarity : List (String × MetricData) := []
  deriving DecidableEq, Repr

inductive AuditCat where
  | accessibility | consistency | layout | clarity
  deriving DecidableEq, Repr

/-- Leftmost match of `/assessment:\s*([^,]+)/`, trimmed.  An occurrence
fails (and the scan retries further right) exactly when nothing or a comma
immediately follows `assessment:`; otherwise, after regex backtracking of
`\s*`, the trimmed capture is the text before the first comma. -/
def findAssess : List Char → Option String
  | [] => none
  | c :: rest =>
    if "assessment:".toList.isPrefixOf (c :: rest) then
      (let rem := (c :: rest).drop "assessment:".toList.length
       if rem = [] ∨ rem.head? = some ',' then findAssess rest
       else some (String.mk (jsTrim ((rem.dropWhile jsWs).takeWhile (· ≠ ',')))))
    else findAssess rest

/-- Leftmost match of `/details:\s*(.+)$/`, trimmed; an occurrence fails
only when nothing at all follows `details:`. -/
def findDetails : List Char → Option String
  | [] => none
  | c :: rest =>
    if "details:".toList.isPrefixOf (c :: rest) then
      (let rem := (c :: rest).drop "details:".toList.length
       if rem = [] then findDetails rest
       else some (String.mk (jsTrim rem)))
    else findDetails rest

/-- First character lowered, modelling `replace(/^./, c => c.toLowerCase())`. -/
def lowerFirst : List Char → List Char
  | [] => []
  | c :: cs => c.toLower :: cs

/-- Match one metric line against `/^-\s*([^:]+):\s*\{(.*)\}\s*$/` (with
regex backtracking semantics for the whitespace-only-name corner), and
normalise the metric name (trim, remove spaces, lower the first letter). -/
def parseMetricLine (t : List Char) : Option (String × MetricData) :=
  match t with
  | '-' :: rest =>
    if rest.head? = some ':' then none
    else
      let name0 := rest.takeWhile (· ≠ ':')
      if name0.length = rest.length then none
      else
        let r2 := rest.drop (name0.length + 1)
        (match r2.dropWhile jsWs with
         | '{' :: r4 =>
           (let revr := r4.reverse
            let ws := revr.takeWhile jsWs
            match revr.drop ws.length with
            | '}' :: revContent =>
              (let content := revContent.reverse
               let metricName := String.mk (lowerFirst ((jsTrim name0).filter (· ≠ ' ')))
               some (metricName,
                 { assessment := findAssess content, details := findDetails content }))
            | _ => none)
         | _ => none)
  | _ => none

def addMetric (d : AuditData) (cat : AuditCat) (nm : String) (md : MetricData) : AuditData :=
  match cat with
  | .accessibility => { d with accessibility := insertAssoc d.accessibility nm md }
  | .consistency => { d with consistency := insertAssoc d.consistency nm md }
  | .layout => { d with layout := insertAssoc d.layout nm md }
  | .clarity => { d with clarity := insertAssoc d.clarity nm md }

structure AuditState where
  cat : Option AuditCat := none
  data : AuditData := {}
  deriving DecidableEq, Repr

/-- One line of the Visual Audit section: fixed category headers switch the
current category; metric lines are stored under it; a metric line before
any header, or an unparseable metric line, is dropped. -/
def auditStep (st : AuditState) (line : List Char) : AuditState :=
  let t := jsTrim line
  if t = [] then st
  else if t = "Accessibility:".toList then { st with cat := some .accessibility }
  else if t = "Consistency:".toList then { st with cat := some .consistency }
  else if t = "Layout & Density:".toList then { st with cat := some .layout }
  else if t = "Clarity:".toList then { st with cat := some .clarity }
  else
    match st.cat with
    | some cat =>
      if t.head? = some '-' then
        match parseMetricLine t with
        | some (nm, md) => { st with data := addMetric st.data cat nm md }
        | none => st
      else st
    | none => st

def parseAuditSection (raw : List Char) : Option AuditData :=
  (sectionBetween "--- Visual Audit Start ---".toList
      "--- Visual Audit End ---".toList raw).map
    fun sec => ((splitOnL ['\n'] sec).foldl auditStep {}).data

/-! ## The full response parser -/

structure AnalysisResult where
  description : String
  elements : List UIElement
  colorPalette : Option (List (String × List String)) := none
  typographySystem : Option (List (List (String × Option JVal))) := none
  visualAudit : Option AuditData := none
  deriving DecidableEq, Repr

def descriptionSentinel : String := "Parsing failed: Could not find general description."

/-- The missing-backgrounds fallback at the end of the parser: when the
parsed palette has a `Backgrounds` key holding an empty array, replace it
by `["#000000"]`. -/
def applyBackgroundsFallback (cp : Option (List (String × List String))) :
    Option (List (String × List String)) :=
  match cp with
  | none => none
  | some m =>
    match lookupAssoc m "Backgrounds" with
    | some [] => some (insertAssoc m "Backgrounds" ["#000000"])
    | _ => some m

/-- Model of `parseDetailedGeminiResponse` (src/index.ts): description
between its markers (with a fixed sentinel default; the source guards on
`generalDescMatch && generalDescMatch[1]`, so an empty captured group is
falsy and keeps the sentinel), element blocks split on the element start
marker, and the three optional sections, followed by the backgrounds
fallback. -/
def parseDetailedGeminiResponse (rawText : String) : AnalysisResult :=
  let raw := rawText.toList
  let description : String :=
    match betweenMarkers "--- General Description Start ---".toList
        "--- General Description End ---".toList raw with
    | some inner => if inner = [] then descriptionSentinel else String.mk (jsTrim inner)
    | none => descriptionSentinel
  let blocks := (splitOnL "--- Element Start ---".toList raw).drop 1
  { description,
    elements := blocks.filterMap parseElementBlock,
    colorPalette := applyBackgroundsFallback (parsePaletteSection raw),
    typographySystem := parseTypoSection raw,
    visualAudit := parseAuditSection raw }

/-! ## Color / typography derivation (§4.2, from `generateUIUXReport`) -/

/-- JavaScript truthiness for string-or-nullish values. -/
def jsTruthy : Option String → Bool
  | some s => s ≠ ""
  | none => false

/-- Set-style insertion preserving first-seen order. -/
def addUnique (acc : List String) (c : String) : List String :=
  if acc.contains c then acc else acc ++ [c]

/-- Collect every element's `appearance.backgroundColor` and
`typography.color` into one deduplicated first-seen-ordered list
(the `uniqueColors` set). -/
def collectColors (els : List UIElement) : List String :=
  els.foldl (fun acc el =>
    let acc1 := match el.appearance.bind (·.backgroundColor) with
      | some c => if c ≠ "" then addUnique acc c else acc
      | none => acc
    match el.typography.bind (·.color) with
    | some c => if c ≠ "" then addUnique acc1 c else acc1
    | none => acc1) []

/-- Round-half-to-even of a rational to an integer (the significand
rounding used by IEEE-754 binary64). -/
def roundHalfEven (x : ℚ) : ℤ :=
  if x - (⌊x⌋ : ℚ) < 1/2 then ⌊x⌋
  else if 1/2 < x - (⌊x⌋ : ℚ) then ⌊x⌋ + 1
  else if ⌊x⌋ % 2 = 0 then ⌊x⌋ else ⌊x⌋ + 1

/-- Correctly rounded IEEE-754 binary64 value of a rational, as an exact
rational: round-to-nearest, ties to even, 53-bit significand. The model
covers the normal, non-overflowing range, which contains every value
arising in the luminance computation below; JavaScript numbers are
binary64, so each arithmetic operation of the source rounds like this. -/
def roundDouble (q : ℚ) : ℚ :=
  if q = 0 then 0
  else if q < 0 then
    -((roundHalfEven (|q| * (2 : ℚ) ^ ((52 : ℤ) - Int.log 2 |q|)) : ℚ) *
      (2 : ℚ) ^ (Int.log 2 |q| - 52))
  else
    (roundHalfEven (|q| * (2 : ℚ) ^ ((52 : ℤ) - Int.log 2 |q|)) : ℚ) *
      (2 : ℚ) ^ (Int.log 2 |q| - 52)

/-- The IEEE-754 binary64 value of the source literal `0.2126`. -/
def dbl2126 : ℚ := 1914930561557935 / 9007199254740992

/-- The IEEE-754 binary64 value of the source literal `0.7152`. -/
def dbl7152 : ℚ := 6441948906990757 / 9007199254740992

/-- The IEEE-754 binary64 value of the source literal `0.0722`. -/
def dbl722 : ℚ := 5202558289538397 / 72057594037927936

/-- The value of `(0.2126*r + 0.7152*g + 0.0722*b) / 255` as the
JavaScript engine computes it: left-associated, with every binary
operation correctly rounded to binary64. -/
def lumDouble (r g b : ℤ) : ℚ :=
  let t1 := roundDouble (dbl2126 * (r : ℚ))
  let t2 := roundDouble (dbl7152 * (g : ℚ))
  let t3 := roundDouble (t1 + t2)
  let t4 := roundDouble (dbl722 * (b : ℚ))
  let t5 := roundDouble (t3 + t4)
  roundDouble (t5 / 255)

/-- The luminance computed by the categorization code for a `#`-prefixed
color: 8-bit channels from `parseInt(hex.substring(2k, 2k+2), 16)` and
the double-precision evaluation of
`(0.2126·r + 0.7152·g + 0.0722·b) / 255`; `none` when the string does not
start with `#` or any channel parses to `NaN`. -/
def lumOfColor (c : String) : Option ℚ :=
  match c.toList with
  | ch :: hex =>
    if ch = '#' then
      (match parseIntHexJS (hex.take 2), parseIntHexJS ((hex.drop 2).take 2),
          parseIntHexJS ((hex.drop 4).take 2) with
       | .int r, .int g, .int b => some (lumDouble r g b)
       | _, _, _ => none)
    else none
  | [] => none

/-- The categorization test: a color goes to `Backgrounds` exactly when its
luminance computes and is below 0.5; non-`#` strings and `NaN` luminances
go to `TextColors` (`NaN < 0.5` is false in JavaScript). -/
def colorIsBackground (c : String) : Bool :=
  match lumOfColor c with
  | some l => decide (l < 1/2)
  | none => false

structure DerivedPalette where
  Backgrounds : List String := []
  TextColors : List String := []
  AccentColors : List String := []
  deriving DecidableEq, Repr

/-- The derived palette: every unique collected color pushed to
`Backgrounds` or `TextColors` by `colorIsBackground`, each list finally
deduplicated; `AccentColors` is never pushed to. -/
def derivedColorPalette (els : List UIElement) : DerivedPalette :=
  let uniq := collectColors els
  let p := uniq.foldl (fun (p : DerivedPalette) c =>
    if colorIsBackground c then { p with Backgrounds := p.Backgrounds ++ [c] }
    else { p with TextColors := p.TextColors ++ [c] }) {}
  { Backgrounds := p.Backgrounds.foldl addUnique [],
    TextColors := p.TextColors.foldl addUnique [],
    AccentColors := [] }

/-- The dedup key for the derived typography system: the stringified
`{fontFamily, fontSize, fontWeight}` with `||`/`!= null` defaults
(`color` deliberately excluded). -/
structure TypoKey where
  fontFamily : String
  fontSize : JVal
  fontWeight : String
  deriving DecidableEq, Repr

def typoKeyOf (t : Typography) : TypoKey :=
  { fontFamily := jsOrStr t.fontFamily "unknown",
    fontSize := match t.fontSize with | some v => v | none => JVal.str "unknown",
    fontWeight := jsOrStr t.fontWeight "unknown" }

/-- The derived typography system: first occurrence of each unique key, in
first-seen order, contributed by every element whose `typography` is
present. -/
def derivedTypographySystem (els : List UIElement) : List TypoKey :=
  els.foldl (fun acc el =>
    match el.typography with
    | some t => if acc.contains (typoKeyOf t) then acc else acc ++ [typoKeyOf t]
    | none => acc) []

/-! ## The WCAG contrast library model -/

/-- Strict `#rrggbb` parse used by the contrast-library model. -/
def parseHex6 (s : String) : Option (ℕ × ℕ × ℕ) :=
  match s.toList with
  | ['#', a, b, c, d, e, f] =>
    if [a, b, c, d, e, f].all isHexDigitChar then
      some (16 * hexDigitVal a + hexDigitVal b,
            16 * hexDigitVal c + hexDigitVal d,
            16 * hexDigitVal e + hexDigitVal f)
    else none
  | _ => none

/-- sRGB channel linearisation (WCAG): `u/12.92` below the 0.03928
threshold, else `((u+0.055)/1.055)^2.4`. -/
noncomputable def chanLin (c : ℕ) : ℝ :=
  let u : ℝ := c / 255
  if u ≤ 0.03928 then u / 12.92 else ((u + 0.055) / 1.055) ^ (2.4 : ℝ)

/-- WCAG relative luminance of an 8-bit RGB triple. -/
noncomputable def relLum (r g b : ℕ) : ℝ :=
  0.2126 * chanLin r + 0.7152 * chanLin g + 0.0722 * chanLin b

/-- Modelled from the spec: the external `wcag-contrast` library's `hex`
function ("computes the WCAG contrast ratio" of two colors), which is not
part of this repository.  It succeeds on valid `#rrggbb` strings with
ratio `(Lmax + 0.05) / (Lmin + 0.05)`; `none` models the exception it
throws on a malformed color string. -/
noncomputable def wcagHexRatioR (fg bg : String) : Option ℝ :=
  match parseHex6 fg, parseHex6 bg with
  | some (r1, g1, b1), some (r2, g2, b2) =>
    some ((max (relLum r1 g1 b1) (relLum r2 g2 b2) + 0.05) /
          (min (relLum r1 g1 b1) (relLum r2 g2 b2) + 0.05))
  | _, _ => none

/-- Model of `parseFloat(ratio.toFixed(2))`: round to two decimal places. -/
noncomputable def round2q (x : ℝ) : ℚ :=
  ((⌊x * 100 + 1/2⌋ : ℤ) : ℚ) / 100

/-! ## Contrast annotation (§4.3, from `generateUIUXReport`) -/

/-- Model of `derivedColorPalette.Backgrounds?.[0] || null`. -/
def defaultBgOf (pal : DerivedPalette) : Option String :=
  match pal.Backgrounds.head? with
  | some s => if s = "" then none else some s
  | none => none

/-- The `try`/`catch` around the library call: the rounded ratio on
success, `null` when the library throws. -/
noncomputable def ratioOrNull (o : Option ℝ) : Option ℚ :=
  match o with
  | some r => some (round2q r)
  | none => none

/-- The per-element contrast computation: foreground from
`typography?.color`, background from `appearance?.backgroundColor` with
the fallback to the supplied default when the element's own value is not a
truthy string; the ratio is computed and rounded when both sides are
truthy strings, and `null` is assigned otherwise or when the library
throws. -/
noncomputable def contrastFor (hexFn : String → String → Option ℝ)
    (defaultBgColor : Option String) (el : UIElement) : Option ℚ :=
  let fgColor := el.typography.bind (·.color)
  let bg0 := el.appearance.bind (·.backgroundColor)
  let bgColor := if ¬ jsTruthy bg0 ∧ jsTruthy defaultBgColor then defaultBgColor else bg0
  match fgColor, bgColor with
  | some f, some b =>
    if f ≠ "" ∧ b ≠ "" then ratioOrNull (hexFn f b) else none
  | _, _ => none

/-- The contrast-annotation pass over the cached element list: each element
record is updated in place with a `contrastRatio` field. -/
noncomputable def annotateElements (hexFn : String → String → Option ℝ)
    (pal : DerivedPalette) (els : List UIElement) : List UIElement :=
  let defaultBgColor := defaultBgOf pal
  els.map fun el => { el with contrastRatio := contrastFor hexFn defaultBgColor el }

/-! ## Session state and the report step (§4.4/§4.5) -/

structure DebugSession where
  currentUrl : Option String := none
  lastScreenshotPath : Option String := none
  debugHistory : List String := []
  elements : List UIElement := []
  lastAnalysisResult : Option AnalysisResult := none
  deriving DecidableEq, Repr

/-- Model of `path.basename`. -/
def baseName (p : String) : String :=
  String.mk ((splitOnL ['/'] p.toList).getLastD [])

/-- The report bundle's data document (filesystem writes are out of scope;
timestamps are not modelled). -/
structure UIUXReport where
  title : String
  testUrl : String
  screenshotFile : String
  generalDescription : String
  colorPalette : DerivedPalette
  typographySystem : List TypoKey
  visualAudit : Option AuditData
  elements : List UIElement
  deriving DecidableEq, Repr

/-- Model of `generateUIUXReport`: fail fast when the session lacks a
screenshot path or an analysis result; otherwise derive the palette and
typography system, annotate the cached elements with contrast ratios
(mutating the stored analysis), and assemble the report from the derived
data.  The returned session reflects the in-place element mutation. -/
noncomputable def generateUIUXReport (hexFn : String → String → Option ℝ)
    (appName testUrl : String) (s : DebugSession) :
    Except String (DebugSession × UIUXReport) :=
  match s.lastScreenshotPath with
  | none => .error "No screenshot found in session. Please run screenshot_url first."
  | some screenshotPath =>
    match s.lastAnalysisResult with
    | none => .error "No analysis result found in session. Please run analyze_screen first."
    | some analysisResult =>
      let derivedPalette := derivedColorPalette analysisResult.elements
      let annotated := annotateElements hexFn derivedPalette analysisResult.elements
      let report : UIUXReport :=
        { title := "UI/UX Analysis Report" ++ (if appName ≠ "" then " for " ++ appName else ""),
          testUrl := testUrl,
          screenshotFile := baseName screenshotPath,
          generalDescription := analysisResult.description,
          colorPalette := derivedPalette,
          typographySystem := derivedTypographySystem analysisResult.elements,
          visualAudit := analysisResult.visualAudit,
          elements := annotated }
      .ok ({ s with lastAnalysisResult := some { analysisResult with elements := annotated } },
           report)

/-- Model of the `generate_report` tool handler: reject a missing/empty
`testUrl`, then reject a session with no cached analysis, then delegate to
`generateUIUXReport` with `appName || ''`. -/
noncomputable def generateReportTool (hexFn : String → String → Option ℝ)
    (testUrl : String) (appName : Option String) (s : DebugSession) :
    Except String (DebugSession × UIUXReport) :=
  if testUrl = "" then .error "Missing required parameter: testUrl"
  else
    match s.lastAnalysisResult with
    | none => .error "No analysis results found in session. Run analyze_screen first."
    | some _ => generateUIUXReport hexFn (jsOrStr appName "") testUrl s

/-! ## Spec-side definitions

These follow the words of the specification / claims, to be compared with
the embeddings above. -/

/-- Following the spec's words (§4.3): foreground is `typography.color`;
background is `appearance.backgroundColor` when that is a present
(truthy) string, else the palette's first `Backgrounds` entry; when both
are present the library's ratio is rounded to 2 decimal places, otherwise
the ratio is absent. -/
noncomputable def specContrastAnnotate (hexFn : String → String → Option ℝ)
    (pal : DerivedPalette) (els : List UIElement) : List UIElement :=
  els.map fun el =>
    let fg := el.typography.bind (·.color)
    let ownBg := el.appearance.bind (·.backgroundColor)
    let bg := if jsTruthy ownBg then ownBg else defaultBgOf pal
    { el with contrastRatio :=
        match (if jsTruthy fg then fg else none), bg with
        | some f, some b => (hexFn f b).map round2q
        | _, _ => none }

/-- Following the claim's words (C3): relative luminance of a `#rrggbb`
color under 8-bit channel decode,
`L = (0.2126·R + 0.7152·G + 0.0722·B) / 255`. -/
def specHexLuminance (c : String) : Option ℚ :=
  (parseHex6 c).map fun rgb =>
    (0.2126 * (rgb.1 : ℚ) + 0.7152 * (rgb.2.1 : ℚ) + 0.0722 * (rgb.2.2 : ℚ)) / 255

/-- The `id: value` content carried by one line of an element block
(`none` when the line is skipped or keyed otherwise). -/
def idValueOfLine (line : List Char) : Option (List Char) :=
  match lineKV line with
  | some (k, v) => match keyOf k with | .id => some v | _ => none
  | none => none

/-- The value of the last `id` line of a block (later lines overwrite). -/
def lastIdValue (lines : List (List Char)) : Option (List Char) :=
  lines.foldl (fun a l => match idValueOfLine l with | some v => some v | none => a) none

/-- An id value that survives acceptance: non-empty and not the literal
`null` (case-insensitive). -/
def idValueAcceptable (v : List Char) : Bool :=
  v ≠ [] ∧ toLowerL v ≠ "null".toList

/-- The characterisation of block acceptance in terms of its lines. -/
def idAccepted (lines : List (List Char)) : Bool :=
  match lastIdValue lines with
  | some v => idValueAcceptable v
  | none => false

/-- The `type: value` content carried by one line of an element block. -/
def typeValueOfLine (line : List Char) : Option (List Char) :=
  match lineKV line with
  | some (k, v) => match keyOf k with | .type => some v | _ => none
  | none => none

/-- The value of the last `type` line of a block. -/
def lastTypeValue (lines : List (List Char)) : Option (List Char) :=
  lines.foldl (fun a l => match typeValueOfLine l with | some v => some v | none => a) none

/-! ## Helper lemmas -/

lemma applyKV_id (d : EData) (k vRaw : List Char) :
    (applyKV d k vRaw).id =
      match keyOf k with
      | .id => (if toLowerL vRaw = "null".toList then none
                else if vRaw = [] then none else some (parseIntJS vRaw))
      | _ => d.id := by
  cases hk : keyOf k <;> simp only [applyKV, hk] <;> try rfl
  by_cases h2 : toLowerL vRaw = "null".toList
  · simp only [if_pos h2]
  · simp only [if_neg h2]

lemma applyKV_type (d : EData) (k vRaw : List Char) :
    (applyKV d k vRaw).type =
      match keyOf k with
      | .type => (if toLowerL vRaw = "null".toList then none else some (String.mk vRaw))
      | _ => d.type := by
  cases hk : keyOf k <;> simp only [applyKV, hk] <;> try rfl
  by_cases h2 : toLowerL vRaw = "null".toList
  · simp only [if_pos h2]; rfl
  · simp only [if_neg h2]; rfl

lemma processLine_id (d : EData) (line : List Char) :
    (processLine d line).id =
      match idValueOfLine line with
      | some v => if toLowerL v = "null".toList then none
                  else if v = [] then none else some (parseIntJS v)
      | none => d.id := by
  unfold processLine idValueOfLine
  cases hkv : lineKV line with
  | none => rfl
  | some kv =>
    obtain ⟨k, v⟩ := kv
    rw [applyKV_id]
    cases hk : keyOf k <;> simp [hk]

lemma processLine_type (d : EData) (line : List Char) :
    (processLine d line).type =
      match typeValueOfLine line with
      | some v => if toLowerL v = "null".toList then none else some (String.mk v)
      | none => d.type := by
  unfold processLine typeValueOfLine
  cases hkv : lineKV line with
  | none => rfl
  | some kv =>
    obtain ⟨k, v⟩ := kv
    rw [applyKV_type]
    cases hk : keyOf k <;> simp [hk]

/-- The value-replacing fold restarted from an arbitrary accumulator. -/
lemma foldl_replace (g : List Char → Option (List Char)) :
    ∀ (ls : List (List Char)) (acc : Option (List Char)),
      ls.foldl (fun a l => match g l with | some v => some v | none => a) acc =
        match ls.foldl (fun a l => match g l with | some v => some v | none => a) none with
        | some v => some v
        | none => acc := by
  intro ls
  induction ls with
  | nil => intro acc; rfl
  | cons l ls ih =>
    intro acc
    simp only [List.foldl_cons]
    cases hg : g l with
    | some v =>
      simp only [hg]
      rw [ih (some v)]
      cases ls.foldl (fun a l => match g l with | some v => some v | none => a) none <;> rfl
    | none => simp only [hg]; rw [ih acc, ih none]

lemma foldl_processLine_id (lines : List (List Char)) (d : EData) :
    ((lines.foldl processLine d).id) =
      match lastIdValue lines with
      | some v => if toLowerL v = "null".toList then none
                  else if v = [] then none else some (parseIntJS v)
      | none => d.id := by
  induction lines generalizing d with
  | nil => rfl
  | cons l ls ih =>
    simp only [List.foldl_cons, lastIdValue]
    rw [ih (processLine d l), processLine_id]
    show _ = (match (ls.foldl _ (match idValueOfLine l with | some v => some v | none => none) : Option (List Char)) with
      | some v => if toLowerL v = "null".toList then none
                  else if v = [] then none else some (parseIntJS v)
      | none => d.id)
    rw [foldl_replace idValueOfLine ls]
    cases hL : (ls.foldl (fun a l => match idValueOfLine l with | some v => some v | none => a) none : Option (List Char)) with
    | some w => simp [lastIdValue, hL]
    | none =>
      simp only [lastIdValue, hL]
      cases hg : idValueOfLine l <;> simp [hg]

lemma foldl_processLine_type (lines : List (List Char)) (d : EData) :
    ((lines.foldl processLine d).type) =
      match lastTypeValue lines with
      | some v => if toLowerL v = "null".toList then none else some (String.mk v)
      | none => d.type := by
  induction lines generalizing d with
  | nil => rfl
  | cons l ls ih =>
    simp only [List.foldl_cons, lastTypeValue]
    rw [ih (processLine d l), processLine_type]
    show _ = (match (ls.foldl _ (match typeValueOfLine l with | some v => some v | none => none) : Option (List Char)) with
      | some v => if toLowerL v = "null".toList then none else some (String.mk v)
      | none => d.type)
    rw [foldl_replace typeValueOfLine ls]
    cases hL : (ls.foldl (fun a l => match typeValueOfLine l with | some v => some v | none => a) none : Option (List Char)) with
    | some w => simp [lastTypeValue, hL]
    | none =>
      simp only [lastTypeValue, hL]
      cases hg : typeValueOfLine l <;> simp [hg]

lemma acceptElement_isSome (d : EData) : (acceptElement d).isSome = d.id.isSome := by
  unfold acceptElement
  cases d.id <;> rfl

lemma parseElementBlock_isSome_char (block : List Char) :
    (parseElementBlock block).isSome = idAccepted (splitOnL ['\n'] block) := by
  unfold parseElementBlock idAccepted
  rw [acceptElement_isSome, foldl_processLine_id]
  cases hL : lastIdValue (splitOnL ['\n'] block) with
  | none => rfl
  | some v =>
    unfold idValueAcceptable
    by_cases h1 : toLowerL v = ['n', 'u', 'l', 'l']
    · simp [h1]
    · by_cases h2 : v = [] <;> simp [h1, h2]

lemma filterMap_length_of_all_isSome {α β : Type} (f : α → Option β) :
    ∀ l : List α, (∀ b ∈ l, (f b).isSome) → (l.filterMap f).length = l.length := by
  intro l
  induction l with
  | nil => intro _; rfl
  | cons a l ih =>
    intro h
    have ha := h a (List.mem_cons_self a l)
    cases hf : f a with
    | none => rw [hf] at ha; simp at ha
    | some b =>
      simp only [List.filterMap_cons, hf, List.length_cons]
      rw [ih fun x hx => h x (List.mem_cons_of_mem a hx)]

/-! ## Claim theorems -/

lemma acceptElement_eq (d : EData) (el : UIElement) (h : acceptElement d = some el) :
    ∃ idv, d.id = some idv ∧
      el = { id := idv, type := jsOrStr d.type "Unknown", label := d.label,
             textContent := d.textContent, geometry := d.geometry.getD {},
             typography := some (d.typography.getD {}),
             appearance := (if d.appearance.getD {} = ({} : Appearance) then none
                            else some (d.appearance.getD {})),
             state := jsOrStr d.state "active",
             description := d.description, contrastRatio := none } := by
  unfold acceptElement at h
  cases hid : d.id with
  | none => rw [hid] at h; exact absurd h (by simp)
  | some idv =>
    rw [hid] at h
    simp only [Option.some.injEq] at h
    exact ⟨idv, rfl, h.symm⟩

lemma jsOrStr_ne_empty (o : Option String) (dflt : String) (hd : dflt ≠ "") :
    jsOrStr o dflt ≠ "" := by
  unfold jsOrStr
  cases o with
  | none => exact hd
  | some s =>
    show (if s = "" then dflt else s) ≠ ""
    by_cases hs : s = ""
    · rw [if_pos hs]; exact hd
    · rw [if_neg hs]; exact hs

def c1BadIdRaw : String := "--- Element Start ---\nid: abc\n--- Element End ---"

/-- C1 (amended): an element block is accepted exactly when its last `id`
line carries a non-empty value other than the literal `null`
(case-insensitive); `parseInt` is applied to that value, but a non-numeric
value yields an accepted element whose id is `NaN` rather than a dropped
block.  The parsed response's element list is the per-block parse of the
blocks split on the start marker, so a response whose blocks all carry
acceptable ids yields exactly one element per block. -/
theorem claim_C1_amended :
    (∀ block : List Char,
        (parseElementBlock block).isSome = idAccepted (splitOnL ['\n'] block)) ∧
    (∀ rawText : String,
        (parseDetailedGeminiResponse rawText).elements =
          ((splitOnL "--- Element Start ---".toList rawText.toList).drop 1).filterMap
            parseElementBlock) ∧
    (∀ blocks : List (List Char), (∀ b ∈ blocks, (parseElementBlock b).isSome) →
        (blocks.filterMap parseElementBlock).length = blocks.length) :=
  ⟨parseElementBlock_isSome_char, fun _ => rfl, filterMap_length_of_all_isSome _⟩

/-- Witness for C1: a concrete block list with valid integer ids is fully
accepted. -/
theorem claim_C1_witness :
    (∀ b ∈ ["id: 3".toList], (parseElementBlock b).isSome = true) ∧
    (["id: 3".toList].filterMap parseElementBlock).length = 1 :=
  ⟨by decide, claim_C1_amended.2.2 _ (by decide)⟩

/-- C1 counterexample: the claim says a block whose id is non-numeric is
dropped, but the block `id: abc` is accepted (with a `NaN` id), so this
one-block response yields one element, not zero. -/
theorem claim_C1_counterexample :
    (parseDetailedGeminiResponse c1BadIdRaw).elements.length = 1 ∧
    (parseDetailedGeminiResponse c1BadIdRaw).elements.map (·.id) = [JsNum.nan] :=
  ⟨rfl, rfl⟩

/-- C10: an accepted element's `type` is the last `type` line's value unless
that is missing, empty, or the literal `null` (case-insensitive), in which
case it defaults to `Unknown`; consequently no accepted element has an
empty `type`.  The concrete instances evaluate a block with no `type` line
and one whose value is `NULL`. -/
theorem claim_C10_type_default :
    (∀ block el, parseElementBlock block = some el →
        el.type = jsOrStr (match lastTypeValue (splitOnL ['\n'] block) with
          | some v => if toLowerL v = "null".toList then none else some (String.mk v)
          | none => none) "Unknown") ∧
    (∀ block el, parseElementBlock block = some el → el.type ≠ "") ∧
    ((parseElementBlock "id: 1".toList).map (·.type) = some "Unknown") ∧
    ((parseElementBlock "id: 1\ntype: NULL".toList).map (·.type) = some "Unknown") := by
  have h1 : ∀ block el, parseElementBlock block = some el →
      el.type = jsOrStr (match lastTypeValue (splitOnL ['\n'] block) with
        | some v => if toLowerL v = "null".toList then none else some (String.mk v)
        | none => none) "Unknown" := by
    intro block el h
    unfold parseElementBlock at h
    obtain ⟨idv, -, hel⟩ := acceptElement_eq _ _ h
    rw [hel]
    have ht := foldl_processLine_type (splitOnL ['\n'] block) {}
    show jsOrStr ((splitOnL ['\n'] block).foldl processLine {}).type "Unknown" = _
    rw [ht]
  refine ⟨h1, ?_, by decide, by decide⟩
  intro block el h
  rw [h1 block el h]
  exact jsOrStr_ne_empty _ _ (by decide)

/-- Witness for C10: the characterisation applied to a concrete block whose
`type` line carries a value. -/
theorem claim_C10_witness :
    parseElementBlock "id: 2\ntype: Button".toList =
      some { id := JsNum.int 2, type := "Button",
             geometry := {}, typography := some {}, appearance := none,
             state := "active", contrastRatio := none } ∧
    ("Button" : String) =
      jsOrStr (match lastTypeValue (splitOnL ['\n'] "id: 2\ntype: Button".toList) with
        | some v => if toLowerL v = "null".toList then none else some (String.mk v)
        | none => none) "Unknown" := by
  refine ⟨by decide, ?_⟩
  have := claim_C10_type_default.1 "id: 2\ntype: Button".toList
    { id := JsNum.int 2, type := "Button",
      geometry := {}, typography := some {}, appearance := none,
      state := "active", contrastRatio := none } (by decide)
  exact this

def c7AllNullBlock : List Char :=
  "id: 8\nappearance: \x7bbackgroundColor: null, borderColor: null, borderWidth: null, borderRadius: null\x7d".toList

/-- C7: the nested-appearance parser never produces an all-absent object
(it collapses it to absent), no accepted element carries an appearance
object whose fields are all absent, and the concrete instances: a block
whose appearance sub-keys are all `null`, and one with no appearance line,
both parse to an absent `appearance`. -/
theorem claim_C7_appearance_collapse :
    (∀ vOpt, parseAppearanceVal vOpt ≠ some ({} : Appearance)) ∧
    (∀ block el, parseElementBlock block = some el →
        el.appearance ≠ some ({} : Appearance)) ∧
    ((parseElementBlock c7AllNullBlock).map (·.appearance) = some none) ∧
    ((parseElementBlock "id: 9".toList).map (·.appearance) = some none) := by
  have collapse : ∀ a : Appearance,
      (if a = ({} : Appearance) then none else some a) ≠ some ({} : Appearance) := by
    intro a
    split_ifs with h
    · simp
    · simp only [ne_eq, Option.some.injEq]
      exact h
  refine ⟨fun vOpt => collapse _, ?_, by decide, by decide⟩
  intro block el h
  unfold parseElementBlock at h
  obtain ⟨idv, -, hel⟩ := acceptElement_eq _ _ h
  rw [hel]
  exact collapse _

/-- Witness for C7: the invariant applied at a concrete accepted element. -/
theorem claim_C7_witness :
    parseElementBlock "id: 9".toList =
      some { id := JsNum.int 9, type := "Unknown",
             geometry := {}, typography := some {}, appearance := none,
             state := "active", contrastRatio := none } ∧
    ({ id := JsNum.int 9, type := "Unknown",
       geometry := {}, typography := some {}, appearance := none,
       state := "active", contrastRatio := none } : UIElement).appearance ≠
      some ({} : Appearance) :=
  ⟨by decide, claim_C7_appearance_collapse.2.1 "id: 9".toList _ (by decide)⟩

lemma typoFold_mono (els : List UIElement) :
    ∀ (acc : List TypoKey) (k : TypoKey), k ∈ acc →
      k ∈ els.foldl (fun acc el =>
        match el.typography with
        | some t => if acc.contains (typoKeyOf t) then acc else acc ++ [typoKeyOf t]
        | none => acc) acc := by
  induction els with
  | nil => intro acc k hk; exact hk
  | cons e es ih =>
    intro acc k hk
    simp only [List.foldl_cons]
    apply ih
    cases he : e.typography with
    | none => exact hk
    | some t =>
      simp only
      split_ifs with hc
      · exact hk
      · exact List.mem_append_left _ hk

lemma typoFold_mem (els : List UIElement) :
    ∀ (acc : List TypoKey) (el : UIElement) (t : Typography),
      el ∈ els → el.typography = some t →
      typoKeyOf t ∈ els.foldl (fun acc el =>
        match el.typography with
        | some t => if acc.contains (typoKeyOf t) then acc else acc ++ [typoKeyOf t]
        | none => acc) acc := by
  induction els with
  | nil => intro _ _ _ h; exact absurd h (List.not_mem_nil _)
  | cons e es ih =>
    intro acc el t hmem ht
    rcases List.mem_cons.mp hmem with he | he
    · subst he
      simp only [List.foldl_cons, ht]
      apply typoFold_mono
      split_ifs with hc
      · simpa using hc
      · exact List.mem_append_right _ (List.mem_singleton.mpr rfl)
    · simp only [List.foldl_cons]
      exact ih _ el t he ht

/-- C9 (implicit): every element accepted by the parser carries a present
`typography` object (unlike `appearance` it is never collapsed back to
absent), every element with present typography contributes its dedup key
to the derived typography system, and the key of an all-absent typography
is the `unknown`/`unknown`/`unknown` entry. -/
theorem claim_C9_typography_always_present :
    (∀ block el, parseElementBlock block = some el → el.typography.isSome = true) ∧
    (∀ els el t, el ∈ els → el.typography = some t →
        typoKeyOf t ∈ derivedTypographySystem els) ∧
    (typoKeyOf {} = { fontFamily := "unknown", fontSize := JVal.str "unknown",
                      fontWeight := "unknown" }) := by
  refine ⟨?_, ?_, rfl⟩
  · intro block el h
    unfold parseElementBlock at h
    obtain ⟨idv, -, hel⟩ := acceptElement_eq _ _ h
    rw [hel]
    rfl
  · intro els el t hmem ht
    exact typoFold_mem els [] el t hmem ht

/-- Witness for C9: a block with an all-`null` typography line parses to a
present all-absent typography, which contributes the `unknown` entry. -/
theorem claim_C9_witness :
    (parseElementBlock "id: 5".toList).map (·.typography) = some (some {}) ∧
    typoKeyOf {} ∈ derivedTypographySystem
      [{ id := JsNum.int 5, type := "Unknown", geometry := {}, typography := some {},
         appearance := none, state := "active", contrastRatio := none }] :=
  ⟨by decide,
   claim_C9_typography_always_present.2.1 _
     { id := JsNum.int 5, type := "Unknown", geometry := {}, typography := some {},
       appearance := none, state := "active", contrastRatio := none }
     {} (by decide) rfl⟩

/-- C8: the parser is a total function (every Lean definition here is
total) whose description is the trimmed marker content when the General
Description markers are present with a non-empty captured group, and the
fixed sentinel both when the markers are absent and when the capture is
empty (the source guards on the truthiness of `generalDescMatch[1]`, and
an empty string is falsy); malformed units are skipped at their own
granularity: a block that fails acceptance contributes nothing while the
remaining blocks still parse, a line without a colon leaves the element
state unchanged, and a palette line without a colon leaves the palette
unchanged. -/
theorem claim_C8_parser_totality :
    (∀ rawText : String,
        betweenMarkers "--- General Description Start ---".toList
            "--- General Description End ---".toList rawText.toList = none →
          (parseDetailedGeminiResponse rawText).description = descriptionSentinel) ∧
    (∀ rawText : String,
        betweenMarkers "--- General Description Start ---".toList
            "--- General Description End ---".toList rawText.toList = some [] →
          (parseDetailedGeminiResponse rawText).description = descriptionSentinel) ∧
    (∀ (rawText : String) (d : List Char),
        betweenMarkers "--- General Description Start ---".toList
            "--- General Description End ---".toList rawText.toList = some d → d ≠ [] →
          (parseDetailedGeminiResponse rawText).description = String.mk (jsTrim d)) ∧
    (∀ pre bad post, parseElementBlock bad = none →
        ((pre ++ bad :: post).filterMap parseElementBlock =
         (pre ++ post).filterMap parseElementBlock)) ∧
    (∀ d line, lineKV line = none → processLine d line = d) ∧
    (∀ acc line, (splitOnL [':'] line).length < 2 → paletteStep acc line = acc) := by
  refine ⟨?_, ?_, ?_, ?_, ?_, ?_⟩
  · intro rawText h
    simp only [parseDetailedGeminiResponse]
    rw [h]
  · intro rawText h
    simp only [parseDetailedGeminiResponse]
    rw [h]
    rfl
  · intro rawText d h hd
    simp only [parseDetailedGeminiResponse]
    rw [h]
    show (if d = [] then descriptionSentinel else String.mk (jsTrim d)) = String.mk (jsTrim d)
    rw [if_neg hd]
  · intro pre bad post h
    simp [List.filterMap_append, List.filterMap_cons, h]
  · intro d line h
    unfold processLine
    rw [h]
  · intro acc line h
    unfold paletteStep
    cases hs : splitOnL [':'] line with
    | nil => rfl
    | cons k rest =>
      cases rest with
      | nil => rfl
      | cons vs rest2 =>
        rw [hs] at h
        simp only [List.length_cons] at h
        omega

/-- Witness for C8: the description default with the markers absent, the
description default with adjacent markers (empty capture), and a skipped
malformed block, at concrete inputs. -/
theorem claim_C8_witness :
    betweenMarkers "--- General Description Start ---".toList
        "--- General Description End ---".toList "no markers here".toList = none ∧
    (parseDetailedGeminiResponse "no markers here").description = descriptionSentinel ∧
    betweenMarkers "--- General Description Start ---".toList
        "--- General Description End ---".toList
        "--- General Description Start ------ General Description End ---".toList = some [] ∧
    (parseDetailedGeminiResponse
        "--- General Description Start ------ General Description End ---").description =
      descriptionSentinel ∧
    parseElementBlock "no colon line".toList = none ∧
    (("id: 1".toList :: "no colon line".toList :: ["id: 2".toList]).filterMap parseElementBlock =
      (["id: 1".toList, "id: 2".toList]).filterMap parseElementBlock) := by
  refine ⟨by decide, claim_C8_parser_totality.1 _ (by decide), by decide,
    claim_C8_parser_totality.2.1 _ (by decide), by decide, ?_⟩
  exact claim_C8_parser_totality.2.2.2.1 ["id: 1".toList] "no colon line".toList ["id: 2".toList]
    (by decide)

/-- C6: with a non-empty `testUrl`, the report tool fails fast with a
message identifying the missing datum — the missing analysis when no
analyze has run, the missing screenshot when an analysis exists without a
session screenshot — and an incomplete session never yields a report
bundle. -/
theorem claim_C6_report_requires_session :
    ∀ (hexFn : String → String → Option ℝ) (testUrl : String) (appName : Option String)
      (s : DebugSession), testUrl ≠ "" →
      (s.lastAnalysisResult = none →
        generateReportTool hexFn testUrl appName s =
          Except.error "No analysis results found in session. Run analyze_screen first.") ∧
      (s.lastAnalysisResult ≠ none → s.lastScreenshotPath = none →
        generateReportTool hexFn testUrl appName s =
          Except.error "No screenshot found in session. Please run screenshot_url first.") ∧
      (∀ out, s.lastScreenshotPath = none ∨ s.lastAnalysisResult = none →
        generateReportTool hexFn testUrl appName s ≠ Except.ok out) := by
  intro hexFn testUrl appName s hurl
  have hbase : generateReportTool hexFn testUrl appName s =
      (match s.lastAnalysisResult with
       | none => Except.error "No analysis results found in session. Run analyze_screen first."
       | some _ => generateUIUXReport hexFn (jsOrStr appName "") testUrl s) := by
    unfold generateReportTool
    rw [if_neg hurl]
  refine ⟨?_, ?_, ?_⟩
  · intro ha
    rw [hbase, ha]
  · intro ha hs
    cases har : s.lastAnalysisResult with
    | none => exact absurd har ha
    | some ar =>
      rw [hbase, har]
      simp only
      unfold generateUIUXReport
      rw [hs]
  · intro out hor
    rcases hor with hs | ha
    · cases har : s.lastAnalysisResult with
      | none => rw [hbase, har]; exact fun h => by simp at h
      | some ar =>
        rw [hbase, har]
        simp only
        unfold generateUIUXReport
        rw [hs]
        exact fun h => by simp at h
    · rw [hbase, ha]
      exact fun h => by simp at h

/-- Witness for C6: the report tool called on the fresh session fails
naming the missing analysis. -/
theorem claim_C6_witness :
    generateReportTool (fun _ _ => none) "http://localhost:4999" none {} =
      Except.error "No analysis results found in session. Run analyze_screen first." :=
  (claim_C6_report_requires_session (fun _ _ => none) "http://localhost:4999" none {}
    (by decide)).1 rfl

lemma isHexDigitChar_not_ws (c : Char) (h : isHexDigitChar c = true) : jsWs c = false := by
  by_contra hw
  rw [Bool.not_eq_false] at hw
  unfold jsWs Char.isWhitespace at hw
  simp only [Bool.or_eq_true, decide_eq_true_eq] at hw
  rcases hw with ((hc | hc) | hc) | hc <;> subst hc <;> exact absurd h (by decide)

lemma isHexDigitChar_ne (c : Char) (h : isHexDigitChar c = true) :
    c ≠ '-' ∧ c ≠ '+' ∧ c ≠ 'x' ∧ c ≠ 'X' := by
  refine ⟨?_, ?_, ?_, ?_⟩ <;> intro hc <;> subst hc <;> exact absurd h (by decide)

lemma parseIntHexJS_pair (a b : Char) (ha : isHexDigitChar a = true)
    (hb : isHexDigitChar b = true) :
    parseIntHexJS [a, b] = .int (16 * hexDigitVal a + hexDigitVal b) := by
  have hwa := isHexDigitChar_not_ws a ha
  obtain ⟨ha1, ha2, -, -⟩ := isHexDigitChar_ne a ha
  obtain ⟨-, -, hb1, hb2⟩ := isHexDigitChar_ne b hb
  unfold parseIntHexJS
  rw [List.dropWhile_cons_of_neg (by rw [hwa]; exact Bool.false_ne_true)]
  simp only [jsSign]
  rw [if_neg ha1, if_neg ha2]
  simp only
  rw [if_neg (show ¬(a = '0' ∧ (b = 'x' ∨ b = 'X')) from fun hand => hand.2.elim hb1 hb2)]
  rw [List.takeWhile_cons_of_pos ha, List.takeWhile_cons_of_pos hb,
      List.takeWhile_nil]
  rw [if_neg (by simp)]
  unfold digitsVal
  simp only [List.foldl_cons, List.foldl_nil]
  congr 1
  push_cast
  ring

lemma parseHex6_toList (c : String) (r g b : ℕ) (h : parseHex6 c = some (r, g, b)) :
    ∃ d1 d2 d3 d4 d5 d6,
      c.toList = ['#', d1, d2, d3, d4, d5, d6] ∧
      isHexDigitChar d1 = true ∧ isHexDigitChar d2 = true ∧ isHexDigitChar d3 = true ∧
      isHexDigitChar d4 = true ∧ isHexDigitChar d5 = true ∧ isHexDigitChar d6 = true ∧
      r = 16 * hexDigitVal d1 + hexDigitVal d2 ∧
      g = 16 * hexDigitVal d3 + hexDigitVal d4 ∧
      b = 16 * hexDigitVal d5 + hexDigitVal d6 := by
  unfold parseHex6 at h
  split at h
  case _ d1 d2 d3 d4 d5 d6 heq =>
    split_ifs at h with hall
    simp only [List.all_cons, List.all_nil, Bool.and_true, Bool.and_eq_true] at hall
    obtain ⟨h1, h2, h3, h4, h5, h6⟩ := hall
    simp only [Option.some.injEq, Prod.mk.injEq] at h
    exact ⟨d1, d2, d3, d4, d5, d6, heq, h1, h2, h3, h4, h5, h6,
      h.1.symm, h.2.1.symm, h.2.2.symm⟩
  case _ => exact absurd h (by simp)

lemma roundDouble_zero : roundDouble 0 = 0 := by
  unfold roundDouble
  rw [if_pos rfl]

lemma roundHalfEven_eq_down (x : ℚ) (m : ℤ) (h1 : (m : ℚ) ≤ x) (h2 : x < (m : ℚ) + 1/2) :
    roundHalfEven x = m := by
  have hf : ⌊x⌋ = m := Int.floor_eq_iff.mpr ⟨h1, by linarith⟩
  unfold roundHalfEven
  rw [hf, if_pos (by linarith)]

lemma roundHalfEven_eq_up (x : ℚ) (m : ℤ) (h1 : (m : ℚ) - 1/2 < x) (h2 : x < (m : ℚ)) :
    roundHalfEven x = m := by
  have hf : ⌊x⌋ = m - 1 := Int.floor_eq_iff.mpr ⟨by push_cast; linarith, by push_cast; linarith⟩
  unfold roundHalfEven
  rw [hf, if_neg (by push_cast; linarith), if_pos (by push_cast; linarith)]
  omega

lemma int_log_two_eq (q : ℚ) (k : ℕ) (hq : 0 < q)
    (hlo : (2:ℚ)^(52:ℕ) ≤ q * (2:ℚ)^k) (hhi : q * (2:ℚ)^k < (2:ℚ)^(53:ℕ)) :
    Int.log 2 q = (52 : ℤ) - k := by
  have h2k : (0:ℚ) < (2:ℚ)^(k:ℤ) := by positivity
  have hA : (2:ℚ)^((52:ℤ) - (k:ℤ)) ≤ q := by
    rw [zpow_sub₀ (by norm_num : (2:ℚ) ≠ 0), div_le_iff₀ h2k]
    calc (2:ℚ)^(52:ℤ) = (2:ℚ)^(52:ℕ) := by norm_num
    _ ≤ q * (2:ℚ)^(k:ℕ) := hlo
    _ = q * (2:ℚ)^(k:ℤ) := by rw [zpow_natCast]
  have hB : q < (2:ℚ)^((52:ℤ) - (k:ℤ) + 1) := by
    rw [show (52:ℤ) - (k:ℤ) + 1 = (53:ℤ) - (k:ℤ) by ring,
      zpow_sub₀ (by norm_num : (2:ℚ) ≠ 0), lt_div_iff₀ h2k]
    calc q * (2:ℚ)^(k:ℤ) = q * (2:ℚ)^(k:ℕ) := by rw [zpow_natCast]
    _ < (2:ℚ)^(53:ℕ) := hhi
    _ = (2:ℚ)^(53:ℤ) := by norm_num
  have hle : ((52:ℤ) - k) ≤ Int.log 2 q := by
    rw [← Int.zpow_le_iff_le_log one_lt_two hq]
    exact_mod_cast hA
  have hlt : Int.log 2 q < (52:ℤ) - k + 1 := by
    rw [← Int.lt_zpow_iff_log_lt one_lt_two hq]
    exact_mod_cast hB
  omega

lemma roundDouble_eq_of_rhe (q : ℚ) (k : ℕ) (m : ℤ)
    (hq : 0 < q)
    (hlo : (2:ℚ)^(52:ℕ) ≤ q * (2:ℚ)^k) (hhi : q * (2:ℚ)^k < (2:ℚ)^(53:ℕ))
    (hrhe : roundHalfEven (q * (2:ℚ)^k) = m) :
    roundDouble q = (m : ℚ) / (2:ℚ)^k := by
  have hlog : Int.log 2 q = (52 : ℤ) - k := int_log_two_eq q k hq hlo hhi
  unfold roundDouble
  rw [if_neg (ne_of_gt hq), if_neg (not_lt.mpr hq.le), abs_of_pos hq, hlog,
    show (52:ℤ) - ((52:ℤ) - (k:ℤ)) = (k:ℤ) by ring,
    show (52:ℤ) - (k:ℤ) - 52 = -(k:ℤ) by ring,
    zpow_natCast, hrhe, zpow_neg, zpow_natCast, div_eq_mul_inv]

lemma roundDouble_eq_down (q : ℚ) (k : ℕ) (m : ℤ)
    (hq : 0 < q)
    (hlo : (2:ℚ)^(52:ℕ) ≤ q * (2:ℚ)^k) (hhi : q * (2:ℚ)^k < (2:ℚ)^(53:ℕ))
    (hm1 : (m : ℚ) ≤ q * (2:ℚ)^k) (hm2 : q * (2:ℚ)^k < (m : ℚ) + 1/2) :
    roundDouble q = (m : ℚ) / (2:ℚ)^k :=
  roundDouble_eq_of_rhe q k m hq hlo hhi (roundHalfEven_eq_down _ m hm1 hm2)

lemma roundDouble_eq_up (q : ℚ) (k : ℕ) (m : ℤ)
    (hq : 0 < q)
    (hlo : (2:ℚ)^(52:ℕ) ≤ q * (2:ℚ)^k) (hhi : q * (2:ℚ)^k < (2:ℚ)^(53:ℕ))
    (hm1 : (m : ℚ) - 1/2 < q * (2:ℚ)^k) (hm2 : q * (2:ℚ)^k < (m : ℚ)) :
    roundDouble q = (m : ℚ) / (2:ℚ)^k :=
  roundDouble_eq_of_rhe q k m hq hlo hhi (roundHalfEven_eq_up _ m hm1 hm2)

lemma lumDouble_zero : lumDouble 0 0 0 = 0 := by
  simp [lumDouble, roundDouble_zero]

lemma lumOfColor_of_parseHex6 (c : String) (r g b : ℕ) (h : parseHex6 c = some (r, g, b)) :
    lumOfColor c = some (lumDouble (r : ℤ) (g : ℤ) (b : ℤ)) ∧
    c.toList.head? = some '#' := by
  obtain ⟨d1, d2, d3, d4, d5, d6, heq, h1, h2, h3, h4, h5, h6, hr, hg, hb⟩ :=
    parseHex6_toList c r g b h
  constructor
  · unfold lumOfColor
    rw [heq]
    simp only [if_pos rfl, List.take, List.drop]
    rw [parseIntHexJS_pair d1 d2 h1 h2, parseIntHexJS_pair d3 d4 h3 h4,
        parseIntHexJS_pair d5 d6 h5 h6]
    simp only [Option.some.injEq]
    rw [hr, hg, hb]
    push_cast
    rfl
  · rw [heq]; rfl

lemma catFold_spec (uniq : List String) :
    ∀ p : DerivedPalette,
      (uniq.foldl (fun p c =>
        if colorIsBackground c then { p with Backgrounds := p.Backgrounds ++ [c] }
        else { p with TextColors := p.TextColors ++ [c] }) p) =
      { Backgrounds := p.Backgrounds ++ uniq.filter (fun c => colorIsBackground c),
        TextColors := p.TextColors ++ uniq.filter (fun c => ¬ colorIsBackground c),
        AccentColors := p.AccentColors } := by
  induction uniq with
  | nil => intro p; simp
  | cons c cs ih =>
    intro p
    simp only [List.foldl_cons, List.filter_cons]
    by_cases hc : colorIsBackground c
    · rw [if_pos hc, ih]
      simp [hc]
    · rw [if_neg hc, ih]
      simp [hc]

lemma mem_foldl_addUnique (l : List String) :
    ∀ (acc : List String) (x : String), x ∈ l.foldl addUnique acc ↔ x ∈ acc ∨ x ∈ l := by
  induction l with
  | nil => intro acc x; simp
  | cons c cs ih =>
    intro acc x
    simp only [List.foldl_cons, ih, addUnique]
    by_cases hc : acc.contains c
    · rw [if_pos hc]
      constructor
      · rintro (h | h)
        · exact Or.inl h
        · exact Or.inr (List.mem_cons_of_mem c h)
      · rintro (h | h)
        · exact Or.inl h
        · rcases List.mem_cons.mp h with h | h
          · subst h; exact Or.inl (by simpa using hc)
          · exact Or.inr h
    · rw [if_neg hc]
      simp only [List.mem_append, List.mem_singleton, List.mem_cons]
      tauto

lemma derivedColorPalette_spec (els : List UIElement) :
    derivedColorPalette els =
      { Backgrounds := ((collectColors els).filter (fun c => colorIsBackground c)).foldl addUnique [],
        TextColors := ((collectColors els).filter (fun c => ¬ colorIsBackground c)).foldl addUnique [],
        AccentColors := [] } := by
  simp only [derivedColorPalette]
  rw [catFold_spec (collectColors els) {}]
  simp

lemma mem_backgrounds_iff (els : List UIElement) (c : String) :
    c ∈ (derivedColorPalette els).Backgrounds ↔
      c ∈ collectColors els ∧ colorIsBackground c = true := by
  rw [derivedColorPalette_spec]
  simp [mem_foldl_addUnique, List.mem_filter]

lemma mem_textcolors_iff (els : List UIElement) (c : String) :
    c ∈ (derivedColorPalette els).TextColors ↔
      c ∈ collectColors els ∧ colorIsBackground c = false := by
  rw [derivedColorPalette_spec]
  simp [mem_foldl_addUnique, List.mem_filter]

lemma lumDouble_white : lumDouble 255 255 255 = (9007199254740991 : ℚ) / 9007199254740992 := by
  have h1 : roundDouble (dbl2126 * ((255 : ℤ) : ℚ)) =
      (7629801456207397 : ℚ) / 140737488355328 := by
    rw [show (dbl2126 * ((255 : ℤ) : ℚ) : ℚ) = (488307293197273425 : ℚ) / 9007199254740992 by
      norm_num [dbl2126, dbl7152, dbl722]]
    rw [roundDouble_eq_down ((488307293197273425 : ℚ) / 9007199254740992) 47 7629801456207397
      (by norm_num) (by norm_num) (by norm_num) (by norm_num) (by norm_num)]
    norm_num
  have h2 : roundDouble (dbl7152 * ((255 : ℤ) : ℚ)) =
      (6416785044072824 : ℚ) / 35184372088832 := by
    rw [show (dbl7152 * ((255 : ℤ) : ℚ) : ℚ) = (1642696971282643035 : ℚ) / 9007199254740992 by
      norm_num [dbl2126, dbl7152, dbl722]]
    rw [roundDouble_eq_down ((1642696971282643035 : ℚ) / 9007199254740992) 45 6416785044072824
      (by norm_num) (by norm_num) (by norm_num) (by norm_num) (by norm_num)]
    norm_num
  have h3 : roundDouble ((7629801456207397 : ℚ) / 140737488355328 +
      (6416785044072824 : ℚ) / 35184372088832) =
      (8324235408124673 : ℚ) / 35184372088832 := by
    rw [show ((7629801456207397 : ℚ) / 140737488355328 +
      (6416785044072824 : ℚ) / 35184372088832 : ℚ) = (33296941632498693 : ℚ) / 140737488355328 by
      norm_num [dbl2126, dbl7152, dbl722]]
    rw [roundDouble_eq_down ((33296941632498693 : ℚ) / 140737488355328) 45 8324235408124673
      (by norm_num) (by norm_num) (by norm_num) (by norm_num) (by norm_num)]
    norm_num
  have h4 : roundDouble (dbl722 * ((255 : ℤ) : ℚ)) =
      (5182235796219888 : ℚ) / 281474976710656 := by
    rw [show (dbl722 * ((255 : ℤ) : ℚ) : ℚ) = (1326652363832291235 : ℚ) / 72057594037927936 by
      norm_num [dbl2126, dbl7152, dbl722]]
    rw [roundDouble_eq_up ((1326652363832291235 : ℚ) / 72057594037927936) 48 5182235796219888
      (by norm_num) (by norm_num) (by norm_num) (by norm_num) (by norm_num)]
    norm_num
  have h5 : roundDouble ((8324235408124673 : ℚ) / 35184372088832 +
      (5182235796219888 : ℚ) / 281474976710656) =
      (8972014882652159 : ℚ) / 35184372088832 := by
    rw [show ((8324235408124673 : ℚ) / 35184372088832 +
      (5182235796219888 : ℚ) / 281474976710656 : ℚ) = (8972014882652159 : ℚ) / 35184372088832 by
      norm_num [dbl2126, dbl7152, dbl722]]
    rw [roundDouble_eq_down ((8972014882652159 : ℚ) / 35184372088832) 45 8972014882652159
      (by norm_num) (by norm_num) (by norm_num) (by norm_num) (by norm_num)]
    norm_num
  have h6 : roundDouble ((8972014882652159 : ℚ) / 35184372088832 / 255) =
      (9007199254740991 : ℚ) / 9007199254740992 := by
    rw [show ((8972014882652159 : ℚ) / 35184372088832 / 255 : ℚ) = (8972014882652159 : ℚ) / 8972014882652160 by
      norm_num [dbl2126, dbl7152, dbl722]]
    rw [roundDouble_eq_up ((8972014882652159 : ℚ) / 8972014882652160) 53 9007199254740991
      (by norm_num) (by norm_num) (by norm_num) (by norm_num) (by norm_num)]
    norm_num
  simp only [lumDouble]
  rw [h1, h2, h3, h4, h5, h6]

lemma lumDouble_d16 : lumDouble 16 16 16 = (4521260802379792 : ℚ) / 72057594037927936 := by
  have h1 : roundDouble (dbl2126 * ((16 : ℤ) : ℚ)) =
      (7659722246231740 : ℚ) / 2251799813685248 := by
    rw [show (dbl2126 * ((16 : ℤ) : ℚ) : ℚ) = (1914930561557935 : ℚ) / 562949953421312 by
      norm_num [dbl2126, dbl7152, dbl722]]
    rw [roundDouble_eq_down ((1914930561557935 : ℚ) / 562949953421312) 51 7659722246231740
      (by norm_num) (by norm_num) (by norm_num) (by norm_num) (by norm_num)]
    norm_num
  have h2 : roundDouble (dbl7152 * ((16 : ℤ) : ℚ)) =
      (6441948906990757 : ℚ) / 562949953421312 := by
    rw [show (dbl7152 * ((16 : ℤ) : ℚ) : ℚ) = (6441948906990757 : ℚ) / 562949953421312 by
      norm_num [dbl2126, dbl7152, dbl722]]
    rw [roundDouble_eq_down ((6441948906990757 : ℚ) / 562949953421312) 49 6441948906990757
      (by norm_num) (by norm_num) (by norm_num) (by norm_num) (by norm_num)]
    norm_num
  have h3 : roundDouble ((7659722246231740 : ℚ) / 2251799813685248 +
      (6441948906990757 : ℚ) / 562949953421312) =
      (8356879468548692 : ℚ) / 562949953421312 := by
    rw [show ((7659722246231740 : ℚ) / 2251799813685248 +
      (6441948906990757 : ℚ) / 562949953421312 : ℚ) = (2089219867137173 : ℚ) / 140737488355328 by
      norm_num [dbl2126, dbl7152, dbl722]]
    rw [roundDouble_eq_down ((2089219867137173 : ℚ) / 140737488355328) 49 8356879468548692
      (by norm_num) (by norm_num) (by norm_num) (by norm_num) (by norm_num)]
    norm_num
  have h4 : roundDouble (dbl722 * ((16 : ℤ) : ℚ)) =
      (5202558289538397 : ℚ) / 4503599627370496 := by
    rw [show (dbl722 * ((16 : ℤ) : ℚ) : ℚ) = (5202558289538397 : ℚ) / 4503599627370496 by
      norm_num [dbl2126, dbl7152, dbl722]]
    rw [roundDouble_eq_down ((5202558289538397 : ℚ) / 4503599627370496) 52 5202558289538397
      (by norm_num) (by norm_num) (by norm_num) (by norm_num) (by norm_num)]
    norm_num
  have h5 : roundDouble ((8356879468548692 : ℚ) / 562949953421312 +
      (5202558289538397 : ℚ) / 4503599627370496) =
      (9007199254740992 : ℚ) / 562949953421312 := by
    rw [show ((8356879468548692 : ℚ) / 562949953421312 +
      (5202558289538397 : ℚ) / 4503599627370496 : ℚ) = (72057594037927933 : ℚ) / 4503599627370496 by
      norm_num [dbl2126, dbl7152, dbl722]]
    rw [roundDouble_eq_up ((72057594037927933 : ℚ) / 4503599627370496) 49 9007199254740992
      (by norm_num) (by norm_num) (by norm_num) (by norm_num) (by norm_num)]
    norm_num
  have h6 : roundDouble ((9007199254740992 : ℚ) / 562949953421312 / 255) =
      (4521260802379792 : ℚ) / 72057594037927936 := by
    rw [show ((9007199254740992 : ℚ) / 562949953421312 / 255 : ℚ) = (16 : ℚ) / 255 by
      norm_num [dbl2126, dbl7152, dbl722]]
    rw [roundDouble_eq_down ((16 : ℚ) / 255) 56 4521260802379792
      (by norm_num) (by norm_num) (by norm_num) (by norm_num) (by norm_num)]
    norm_num
  simp only [lumDouble]
  rw [h1, h2, h3, h4, h5, h6]

lemma lumDouble_d240 : lumDouble 240 240 240 = (8477364004462110 : ℚ) / 9007199254740992 := by
  have h1 : roundDouble (dbl2126 * ((240 : ℤ) : ℚ)) =
      (7180989605842256 : ℚ) / 140737488355328 := by
    rw [show (dbl2126 * ((240 : ℤ) : ℚ) : ℚ) = (28723958423369025 : ℚ) / 562949953421312 by
      norm_num [dbl2126, dbl7152, dbl722]]
    rw [roundDouble_eq_down ((28723958423369025 : ℚ) / 562949953421312) 47 7180989605842256
      (by norm_num) (by norm_num) (by norm_num) (by norm_num) (by norm_num)]
    norm_num
  have h2 : roundDouble (dbl7152 * ((240 : ℤ) : ℚ)) =
      (6039327100303835 : ℚ) / 35184372088832 := by
    rw [show (dbl7152 * ((240 : ℤ) : ℚ) : ℚ) = (96629233604861355 : ℚ) / 562949953421312 by
      norm_num [dbl2126, dbl7152, dbl722]]
    rw [roundDouble_eq_up ((96629233604861355 : ℚ) / 562949953421312) 45 6039327100303835
      (by norm_num) (by norm_num) (by norm_num) (by norm_num) (by norm_num)]
    norm_num
  have h3 : roundDouble ((7180989605842256 : ℚ) / 140737488355328 +
      (6039327100303835 : ℚ) / 35184372088832) =
      (7834574501764399 : ℚ) / 35184372088832 := by
    rw [show ((7180989605842256 : ℚ) / 140737488355328 +
      (6039327100303835 : ℚ) / 35184372088832 : ℚ) = (7834574501764399 : ℚ) / 35184372088832 by
      norm_num [dbl2126, dbl7152, dbl722]]
    rw [roundDouble_eq_down ((7834574501764399 : ℚ) / 35184372088832) 45 7834574501764399
      (by norm_num) (by norm_num) (by norm_num) (by norm_num) (by norm_num)]
    norm_num
  have h4 : roundDouble (dbl722 * ((240 : ℤ) : ℚ)) =
      (4877398396442247 : ℚ) / 281474976710656 := by
    rw [show (dbl722 * ((240 : ℤ) : ℚ) : ℚ) = (78038374343075955 : ℚ) / 4503599627370496 by
      norm_num [dbl2126, dbl7152, dbl722]]
    rw [roundDouble_eq_down ((78038374343075955 : ℚ) / 4503599627370496) 48 4877398396442247
      (by norm_num) (by norm_num) (by norm_num) (by norm_num) (by norm_num)]
    norm_num
  have h5 : roundDouble ((7834574501764399 : ℚ) / 35184372088832 +
      (4877398396442247 : ℚ) / 281474976710656) =
      (8444249301319680 : ℚ) / 35184372088832 := by
    rw [show ((7834574501764399 : ℚ) / 35184372088832 +
      (4877398396442247 : ℚ) / 281474976710656 : ℚ) = (67553994410557439 : ℚ) / 281474976710656 by
      norm_num [dbl2126, dbl7152, dbl722]]
    rw [roundDouble_eq_up ((67553994410557439 : ℚ) / 281474976710656) 45 8444249301319680
      (by norm_num) (by norm_num) (by norm_num) (by norm_num) (by norm_num)]
    norm_num
  have h6 : roundDouble ((8444249301319680 : ℚ) / 35184372088832 / 255) =
      (8477364004462110 : ℚ) / 9007199254740992 := by
    rw [show ((8444249301319680 : ℚ) / 35184372088832 / 255 : ℚ) = (16 : ℚ) / 17 by
      norm_num [dbl2126, dbl7152, dbl722]]
    rw [roundDouble_eq_down ((16 : ℚ) / 17) 53 8477364004462110
      (by norm_num) (by norm_num) (by norm_num) (by norm_num) (by norm_num)]
    norm_num
  simp only [lumDouble]
  rw [h1, h2, h3, h4, h5, h6]

lemma lumDouble_tie : lumDouble 30 153 162 = (9007199254740991 : ℚ) / 18014398509481984 := by
  have h1 : roundDouble (dbl2126 * ((30 : ℤ) : ℚ)) =
      (7180989605842256 : ℚ) / 1125899906842624 := by
    rw [show (dbl2126 * ((30 : ℤ) : ℚ) : ℚ) = (28723958423369025 : ℚ) / 4503599627370496 by
      norm_num [dbl2126, dbl7152, dbl722]]
    rw [roundDouble_eq_down ((28723958423369025 : ℚ) / 4503599627370496) 50 7180989605842256
      (by norm_num) (by norm_num) (by norm_num) (by norm_num) (by norm_num)]
    norm_num
  have h2 : roundDouble (dbl7152 * ((153 : ℤ) : ℚ)) =
      (7700142052887389 : ℚ) / 70368744177664 := by
    rw [show (dbl7152 * ((153 : ℤ) : ℚ) : ℚ) = (985618182769585821 : ℚ) / 9007199254740992 by
      norm_num [dbl2126, dbl7152, dbl722]]
    rw [roundDouble_eq_down ((985618182769585821 : ℚ) / 9007199254740992) 46 7700142052887389
      (by norm_num) (by norm_num) (by norm_num) (by norm_num) (by norm_num)]
    norm_num
  have h3 : roundDouble ((7180989605842256 : ℚ) / 1125899906842624 +
      (7700142052887389 : ℚ) / 70368744177664) =
      (8148953903252530 : ℚ) / 70368744177664 := by
    rw [show ((7180989605842256 : ℚ) / 1125899906842624 +
      (7700142052887389 : ℚ) / 70368744177664 : ℚ) = (4074476951626265 : ℚ) / 35184372088832 by
      norm_num [dbl2126, dbl7152, dbl722]]
    rw [roundDouble_eq_down ((4074476951626265 : ℚ) / 35184372088832) 46 8148953903252530
      (by norm_num) (by norm_num) (by norm_num) (by norm_num) (by norm_num)]
    norm_num
  have h4 : roundDouble (dbl722 * ((162 : ℤ) : ℚ)) =
      (6584487835197034 : ℚ) / 562949953421312 := by
    rw [show (dbl722 * ((162 : ℤ) : ℚ) : ℚ) = (421407221452610157 : ℚ) / 36028797018963968 by
      norm_num [dbl2126, dbl7152, dbl722]]
    rw [roundDouble_eq_up ((421407221452610157 : ℚ) / 36028797018963968) 49 6584487835197034
      (by norm_num) (by norm_num) (by norm_num) (by norm_num) (by norm_num)]
    norm_num
  have h5 : roundDouble ((8148953903252530 : ℚ) / 70368744177664 +
      (6584487835197034 : ℚ) / 562949953421312) =
      (8972014882652159 : ℚ) / 70368744177664 := by
    rw [show ((8148953903252530 : ℚ) / 70368744177664 +
      (6584487835197034 : ℚ) / 562949953421312 : ℚ) = (35888059530608637 : ℚ) / 281474976710656 by
      norm_num [dbl2126, dbl7152, dbl722]]
    rw [roundDouble_eq_down ((35888059530608637 : ℚ) / 281474976710656) 46 8972014882652159
      (by norm_num) (by norm_num) (by norm_num) (by norm_num) (by norm_num)]
    norm_num
  have h6 : roundDouble ((8972014882652159 : ℚ) / 70368744177664 / 255) =
      (9007199254740991 : ℚ) / 18014398509481984 := by
    rw [show ((8972014882652159 : ℚ) / 70368744177664 / 255 : ℚ) = (8972014882652159 : ℚ) / 17944029765304320 by
      norm_num [dbl2126, dbl7152, dbl722]]
    rw [roundDouble_eq_up ((8972014882652159 : ℚ) / 17944029765304320) 54 9007199254740991
      (by norm_num) (by norm_num) (by norm_num) (by norm_num) (by norm_num)]
    norm_num
  simp only [lumDouble]
  rw [h1, h2, h3, h4, h5, h6]

lemma colorIsBackground_true_eval (c : String) (r g b : ℕ) (v : ℚ)
    (h : parseHex6 c = some (r, g, b))
    (hv : lumDouble (r : ℤ) (g : ℤ) (b : ℤ) = v)
    (hlt : v < 1/2) :
    colorIsBackground c = true := by
  obtain ⟨hcode, -⟩ := lumOfColor_of_parseHex6 c r g b h
  unfold colorIsBackground
  rw [hcode, hv]
  exact decide_eq_true hlt

lemma colorIsBackground_false_eval (c : String) (r g b : ℕ) (v : ℚ)
    (h : parseHex6 c = some (r, g, b))
    (hv : lumDouble (r : ℤ) (g : ℤ) (b : ℤ) = v)
    (hge : ¬ v < 1/2) :
    colorIsBackground c = false := by
  obtain ⟨hcode, -⟩ := lumOfColor_of_parseHex6 c r g b h
  unfold colorIsBackground
  rw [hcode, hv]
  exact decide_eq_false hge

def c3DarkEl : UIElement :=
  { id := JsNum.int 1, type := "Card", geometry := {},
    typography := some {}, appearance := some { backgroundColor := some "#101010" },
    state := "active", contrastRatio := none }

def c3LightEl : UIElement :=
  { id := JsNum.int 2, type := "Card", geometry := {},
    typography := some {}, appearance := some { backgroundColor := some "#f0f0f0" },
    state := "active", contrastRatio := none }

def c3TieEl : UIElement :=
  { id := JsNum.int 3, type := "Card", geometry := {},
    typography := some {}, appearance := some { backgroundColor := some "#1e99a2" },
    state := "active", contrastRatio := none }

/-- C3 (amended): `AccentColors` is always empty; every collected
`#rrggbb` color is placed in `Backgrounds` when the double-precision
(IEEE-754 binary64) evaluation of
`(0.2126·R + 0.7152·G + 0.0722·B)/255` — the value the JavaScript engine
actually compares against 0.5 — is below 0.5, and in `TextColors`
otherwise (exclusively); every collected color not starting with `#` is
placed in `TextColors` unconditionally; and the spec's example pair
`#101010`/`#f0f0f0` lands in `Backgrounds`/`TextColors` respectively.
The double-precision comparison agrees with the exact formula except at
colors whose exact luminance is exactly 0.5, where the rounded value can
fall below 0.5 (see the counterexample at `#1e99a2`). -/
theorem claim_C3_color_categorization :
    (∀ els, (derivedColorPalette els).AccentColors = []) ∧
    (∀ els (c : String) (r g b : ℕ), c ∈ collectColors els →
      parseHex6 c = some (r, g, b) →
      ((lumDouble (r : ℤ) (g : ℤ) (b : ℤ) < 1/2 →
          c ∈ (derivedColorPalette els).Backgrounds ∧
          c ∉ (derivedColorPalette els).TextColors) ∧
       (¬ lumDouble (r : ℤ) (g : ℤ) (b : ℤ) < 1/2 →
          c ∈ (derivedColorPalette els).TextColors ∧
          c ∉ (derivedColorPalette els).Backgrounds))) ∧
    (∀ els (c : String), c ∈ collectColors els → c.toList.head? ≠ some '#' →
      (c ∈ (derivedColorPalette els).TextColors ∧
       c ∉ (derivedColorPalette els).Backgrounds)) ∧
    (derivedColorPalette [c3DarkEl, c3LightEl] =
      { Backgrounds := ["#101010"], TextColors := ["#f0f0f0"], AccentColors := [] }) := by
  have hdark : colorIsBackground "#101010" = true :=
    colorIsBackground_true_eval _ 16 16 16 ((4521260802379792 : ℚ) / 72057594037927936)
      (by decide) (by push_cast; exact lumDouble_d16) (by norm_num)
  have hlight : colorIsBackground "#f0f0f0" = false :=
    colorIsBackground_false_eval _ 240 240 240 ((8477364004462110 : ℚ) / 9007199254740992)
      (by decide) (by push_cast; exact lumDouble_d240) (by norm_num)
  have hconc : derivedColorPalette [c3DarkEl, c3LightEl] =
      { Backgrounds := ["#101010"], TextColors := ["#f0f0f0"], AccentColors := [] } := by
    rw [derivedColorPalette_spec]
    have hcoll : collectColors [c3DarkEl, c3LightEl] = ["#101010", "#f0f0f0"] := by decide
    rw [hcoll]
    simp [hdark, hlight, addUnique]
  refine ⟨?_, ?_, ?_, hconc⟩
  · intro els
    rw [derivedColorPalette_spec]
  · intro els c r g b hmem hhex
    obtain ⟨hcode, -⟩ := lumOfColor_of_parseHex6 c r g b hhex
    have hbg : colorIsBackground c = decide (lumDouble (r : ℤ) (g : ℤ) (b : ℤ) < 1/2) := by
      unfold colorIsBackground
      rw [hcode]
    constructor
    · intro hl
      rw [mem_backgrounds_iff, mem_textcolors_iff]
      refine ⟨⟨hmem, by rw [hbg]; exact decide_eq_true hl⟩, ?_⟩
      rintro ⟨-, hfalse⟩
      rw [hbg] at hfalse
      rw [decide_eq_false_iff_not] at hfalse
      exact hfalse hl
    · intro hl
      rw [mem_backgrounds_iff, mem_textcolors_iff]
      refine ⟨⟨hmem, by rw [hbg]; exact decide_eq_false hl⟩, ?_⟩
      rintro ⟨-, htrue⟩
      rw [hbg] at htrue
      exact hl (of_decide_eq_true htrue)
  · intro els c hmem hh
    have hbg : colorIsBackground c = false := by
      unfold colorIsBackground lumOfColor
      cases hcl : c.toList with
      | nil => rfl
      | cons ch tl =>
        have : ch ≠ '#' := by
          intro hch
          exact hh (by rw [hcl, hch]; rfl)
        simp [this]
    rw [mem_backgrounds_iff, mem_textcolors_iff]
    refine ⟨⟨hmem, hbg⟩, ?_⟩
    rintro ⟨-, htrue⟩
    rw [hbg] at htrue
    exact Bool.false_ne_true htrue

/-- C3 counterexample: at `#1e99a2` the exact luminance of the claim's
formula is exactly 0.5, so the claim ("below 0.5 → Backgrounds,
otherwise TextColors") demands `TextColors`; but the program's
double-precision evaluation rounds to
9007199254740991/2^54 = 0.49999999999999994 < 0.5, and the color is
placed in `Backgrounds`. -/
theorem claim_C3_counterexample :
    specHexLuminance "#1e99a2" = some (1/2) ∧
    ¬ ((1/2 : ℚ) < 1/2) ∧
    lumDouble 30 153 162 = (9007199254740991 : ℚ) / 18014398509481984 ∧
    lumDouble 30 153 162 < 1/2 ∧
    "#1e99a2" ∈ (derivedColorPalette [c3TieEl]).Backgrounds ∧
    "#1e99a2" ∉ (derivedColorPalette [c3TieEl]).TextColors := by
  have hp : parseHex6 "#1e99a2" = some (30, 153, 162) := by decide
  have hlum : specHexLuminance "#1e99a2" = some (1/2) := by
    unfold specHexLuminance
    rw [hp]
    simp only [Option.map_some', Option.some.injEq]
    push_cast
    norm_num
  have htie : colorIsBackground "#1e99a2" = true :=
    colorIsBackground_true_eval _ 30 153 162 ((9007199254740991 : ℚ) / 18014398509481984) hp
      (by push_cast; exact lumDouble_tie) (by norm_num)
  refine ⟨hlum, by norm_num, lumDouble_tie, by rw [lumDouble_tie]; norm_num, ?_, ?_⟩
  · rw [mem_backgrounds_iff]
    exact ⟨by decide, htie⟩
  · rw [mem_textcolors_iff]
    rintro ⟨-, hfalse⟩
    exact Bool.noConfusion (htie.symm.trans hfalse)

/-- Witness for C3: the dark spec-example color is collected, parses to
channels (16, 16, 16), its double-precision luminance is below 0.5, and
it lands in `Backgrounds`. -/
theorem claim_C3_witness :
    "#101010" ∈ collectColors [c3DarkEl] ∧
    parseHex6 "#101010" = some (16, 16, 16) ∧
    lumDouble 16 16 16 < 1/2 ∧
    "#101010" ∈ (derivedColorPalette [c3DarkEl]).Backgrounds := by
  refine ⟨by decide, by decide, by rw [lumDouble_d16]; norm_num, ?_⟩
  exact ((claim_C3_color_categorization.2.1 [c3DarkEl] "#101010" 16 16 16
    (by decide) (by decide)).1 (by push_cast; rw [lumDouble_d16]; norm_num)).1

lemma chanLin_255 : chanLin 255 = 1 := by
  unfold chanLin
  have hu : ((255 : ℕ) : ℝ) / 255 = 1 := by norm_num
  rw [hu, if_neg (by norm_num)]
  rw [show ((1 : ℝ) + 0.055) / 1.055 = 1 by norm_num]
  exact Real.one_rpow _

lemma chanLin_0 : chanLin 0 = 0 := by
  unfold chanLin
  norm_num

lemma relLum_white : relLum 255 255 255 = 1 := by
  unfold relLum
  rw [chanLin_255]
  norm_num

lemma relLum_black : relLum 0 0 0 = 0 := by
  unfold relLum
  rw [chanLin_0]
  norm_num

lemma wcag_white_black : wcagHexRatioR "#ffffff" "#000000" = some 21 := by
  unfold wcagHexRatioR
  rw [show parseHex6 "#ffffff" = some (255, 255, 255) from by decide,
      show parseHex6 "#000000" = some (0, 0, 0) from by decide]
  simp only [relLum_white, relLum_black, Option.some.injEq]
  rw [max_eq_left (by norm_num : (0:ℝ) ≤ 1), min_eq_right (by norm_num : (0:ℝ) ≤ 1)]
  norm_num

lemma round2q_21 : round2q 21 = 21 := by
  unfold round2q
  rw [show (21 : ℝ) * 100 + 1/2 = 2100.5 by norm_num]
  rw [show ⌊(2100.5 : ℝ)⌋ = 2100 from by
    rw [Int.floor_eq_iff]
    constructor <;> norm_num]
  norm_num

lemma defaultBgOf_cases (pal : DerivedPalette) :
    defaultBgOf pal = none ∨ ∃ d, defaultBgOf pal = some d ∧ d ≠ "" := by
  unfold defaultBgOf
  cases pal.Backgrounds.head? with
  | none => exact Or.inl rfl
  | some s =>
    by_cases hs : s = ""
    · simp [hs]
    · exact Or.inr ⟨s, by
        show (if s = "" then none else some s) = some s
        rw [if_neg hs], hs⟩

lemma ratioOrNull_eq_map (o : Option ℝ) : ratioOrNull o = o.map round2q := by
  cases o <;> rfl

lemma contrastFor_eq_spec (hexFn : String → String → Option ℝ) (pal : DerivedPalette)
    (el : UIElement) :
    contrastFor hexFn (defaultBgOf pal) el =
      (match (if jsTruthy (el.typography.bind (·.color)) then el.typography.bind (·.color)
              else none),
             (if jsTruthy (el.appearance.bind (·.backgroundColor))
              then el.appearance.bind (·.backgroundColor) else defaultBgOf pal) with
       | some f, some b => (hexFn f b).map round2q
       | _, _ => none) := by
  unfold contrastFor
  rcases defaultBgOf_cases pal with hd | ⟨d, hd, hdne⟩ <;> rw [hd] <;>
    cases hfg : el.typography.bind (·.color) <;>
      cases hbg : el.appearance.bind (·.backgroundColor) <;>
        simp [jsTruthy, ratioOrNull_eq_map] <;> split_ifs <;>
          (try simp_all [ratioOrNull_eq_map, Option.map])

def c4Pal : DerivedPalette :=
  { Backgrounds := ["#222222"], TextColors := [], AccentColors := [] }

def c4WhiteOnBlackEl : UIElement :=
  { id := JsNum.int 1, type := "Text", geometry := {},
    typography := some { color := some "#ffffff" },
    appearance := some { backgroundColor := some "#000000" },
    state := "active", contrastRatio := none }

def c4NoFgEl : UIElement :=
  { id := JsNum.int 2, type := "Text", geometry := {},
    typography := some {}, appearance := some { backgroundColor := some "#000000" },
    state := "active", contrastRatio := none }

lemma ratioOrNull_21 : ratioOrNull (wcagHexRatioR "#ffffff" "#000000") = some 21 := by
  rw [wcag_white_black]
  show some (round2q 21) = some 21
  rw [round2q_21]

lemma contrastFor_white_black :
    contrastFor wcagHexRatioR (defaultBgOf c4Pal) c4WhiteOnBlackEl = some 21 := by
  unfold contrastFor
  show (match (some "#ffffff" : Option String),
      (if ¬ jsTruthy (some "#000000") ∧ jsTruthy (defaultBgOf c4Pal)
       then defaultBgOf c4Pal else (some "#000000" : Option String)) with
    | some f, some b => if f ≠ "" ∧ b ≠ "" then ratioOrNull (wcagHexRatioR f b) else none
    | _, _ => none) = some 21
  rw [if_neg (by simp [jsTruthy])]
  show (if ("#ffffff" : String) ≠ "" ∧ ("#000000" : String) ≠ ""
        then ratioOrNull (wcagHexRatioR "#ffffff" "#000000") else none) = some 21
  rw [if_pos (by constructor <;> decide)]
  exact ratioOrNull_21

lemma contrastFor_no_fg :
    contrastFor wcagHexRatioR (defaultBgOf c4Pal) c4NoFgEl = none := by
  unfold contrastFor
  rfl

/-- C4: the contrast-annotation pass coincides, for every library model,
palette and element list, with the spec's description (foreground from
`typography.color`; background from `appearance.backgroundColor` when
present and truthy, else the palette's first `Backgrounds` entry; the
rounded ratio when both present, absent otherwise — including when the
library throws on a malformed color, and annotation itself is a total
function); concretely, `#ffffff` on `#000000` is annotated `21` and a
missing foreground yields an absent ratio. -/
theorem claim_C4_contrast_pass :
    (∀ (hexFn : String → String → Option ℝ) (pal : DerivedPalette) (els : List UIElement),
        annotateElements hexFn pal els = specContrastAnnotate hexFn pal els) ∧
    ((annotateElements wcagHexRatioR c4Pal [c4WhiteOnBlackEl]).map (·.contrastRatio) =
      [some 21]) ∧
    ((annotateElements wcagHexRatioR c4Pal [c4NoFgEl]).map (·.contrastRatio) = [none]) := by
  refine ⟨?_, ?_, ?_⟩
  · intro hexFn pal els
    unfold annotateElements specContrastAnnotate
    simp only
    congr 1
    funext el
    rw [contrastFor_eq_spec]
  · simp only [annotateElements, List.map, contrastFor_white_black]
  · simp only [annotateElements, List.map, contrastFor_no_fg]

def c5LightEl : UIElement :=
  { id := JsNum.int 1, type := "Text", geometry := {},
    typography := some { color := some "#ffffff" }, appearance := none,
    state := "active", contrastRatio := none }

/-- C5 counterexample: for an element list whose only color is light, the
derived background list ends up empty and no `#000000` is injected into
it, so the downstream contrast calculation has no background candidate —
the element's ratio is absent even though its foreground is valid. -/
theorem claim_C5_counterexample :
    (derivedColorPalette [c5LightEl]).Backgrounds = [] ∧
    ((annotateElements wcagHexRatioR (derivedColorPalette [c5LightEl]) [c5LightEl]).map
      (·.contrastRatio) = [none]) := by
  have hwhite : colorIsBackground "#ffffff" = false :=
    colorIsBackground_false_eval _ 255 255 255 ((9007199254740991 : ℚ) / 9007199254740992)
      (by decide) (by push_cast; exact lumDouble_white) (by norm_num)
  have hpal : derivedColorPalette [c5LightEl] =
      { Backgrounds := [], TextColors := ["#ffffff"], AccentColors := [] } := by
    rw [derivedColorPalette_spec]
    have hcoll : collectColors [c5LightEl] = ["#ffffff"] := by decide
    rw [hcoll]
    simp [hwhite, addUnique]
  rw [hpal]
  exact ⟨rfl, rfl⟩

/-- C5 (amended): the `#000000` fallback injection applies to the palette
parsed directly from the response text — when its `Backgrounds` key
parsed to an empty list it is replaced by `["#000000"]` — but the derived
palette used by the contrast step receives no such injection: when it is
empty the contrast fallback is simply absent, and an element without its
own truthy background color gets no ratio. -/
theorem claim_C5_backgrounds_fallback :
    (∀ (rawText : String) (m : List (String × List String)),
        parsePaletteSection rawText.toList = some m →
        lookupAssoc m "Backgrounds" = some [] →
        (parseDetailedGeminiResponse rawText).colorPalette =
          some (insertAssoc m "Backgrounds" ["#000000"])) ∧
    (∀ pal : DerivedPalette, pal.Backgrounds = [] → defaultBgOf pal = none) ∧
    (∀ (hexFn : String → String → Option ℝ) (el : UIElement),
        jsTruthy (el.appearance.bind (·.backgroundColor)) = false →
        contrastFor hexFn none el = none) := by
  refine ⟨?_, ?_, ?_⟩
  · intro rawText m hm hlook
    simp only [parseDetailedGeminiResponse]
    rw [hm]
    unfold applyBackgroundsFallback
    show (match lookupAssoc m "Backgrounds" with
          | some [] => some (insertAssoc m "Backgrounds" ["#000000"])
          | _ => some m) = some (insertAssoc m "Backgrounds" ["#000000"])
    rw [hlook]
  · intro pal hpal
    unfold defaultBgOf
    rw [hpal]
    rfl
  · intro hexFn el hbg
    unfold contrastFor
    cases hb : el.appearance.bind (·.backgroundColor) with
    | none =>
      cases hfg : el.typography.bind (·.color) <;> simp [jsTruthy]
    | some s =>
      rw [hb] at hbg
      unfold jsTruthy at hbg
      simp only [decide_eq_false_iff_not, ne_eq, not_not] at hbg
      subst hbg
      cases hfg : el.typography.bind (·.color) <;> simp [jsTruthy]

/-- Witness for C5: the parser-level injection at a concrete response whose
`Backgrounds` line parses to an empty list. -/
theorem claim_C5_witness :
    parsePaletteSection "--- Color Palette Start ---\nBackgrounds: null\n--- Color Palette End ---".toList =
      some [("Backgrounds", [])] ∧
    (parseDetailedGeminiResponse
        "--- Color Palette Start ---\nBackgrounds: null\n--- Color Palette End ---").colorPalette =
      some [("Backgrounds", ["#000000"])] := by
  refine ⟨by decide, ?_⟩
  exact claim_C5_backgrounds_fallback.1 _ [("Backgrounds", [])] (by decide) (by decide)

/-- The stored analysis after the report step's in-place contrast
annotation. -/
noncomputable def analysisAfterReport (hexFn : String → String → Option ℝ)
    (ar : AnalysisResult) : AnalysisResult :=
  { ar with elements := annotateElements hexFn (derivedColorPalette ar.elements) ar.elements }

/-- The session after the report step. -/
noncomputable def sessionAfterReport (hexFn : String → String → Option ℝ)
    (s : DebugSession) (ar : AnalysisResult) : DebugSession :=
  { s with lastAnalysisResult := some (analysisAfterReport hexFn ar) }

/-- The report document assembled by the report step. -/
noncomputable def reportOf (hexFn : String → String → Option ℝ)
    (appName testUrl p : String) (ar : AnalysisResult) : UIUXReport :=
  { title := "UI/UX Analysis Report" ++ (if appName ≠ "" then " for " ++ appName else ""),
    testUrl := testUrl, screenshotFile := baseName p,
    generalDescription := ar.description,
    colorPalette := derivedColorPalette ar.elements,
    typographySystem := derivedTypographySystem ar.elements,
    visualAudit := ar.visualAudit,
    elements := annotateElements hexFn (derivedColorPalette ar.elements) ar.elements }

lemma generateUIUXReport_ok (hexFn : String → String → Option ℝ)
    (appName testUrl : String) (s : DebugSession) (p : String) (ar : AnalysisResult)
    (hp : s.lastScreenshotPath = some p) (har : s.lastAnalysisResult = some ar) :
    generateUIUXReport hexFn appName testUrl s =
      Except.ok (sessionAfterReport hexFn s ar, reportOf hexFn appName testUrl p ar) := by
  obtain ⟨cu, sp, dh, els0, la⟩ := s
  simp only at hp har
  subst hp
  subst har
  rfl

/-- C2 (amended): a successful report run leaves `currentUrl`,
`lastScreenshotPath`, `debugHistory` and the `elements` field unchanged,
and replaces the stored analysis by one whose cached element records have
been annotated in place with contrast ratios — only the `contrastRatio`
field of each cached element changes (so the stored analysis is *not*
immutable once the report step has run). -/
theorem claim_C2_report_mutation :
    ∀ (hexFn : String → String → Option ℝ) (appName testUrl : String)
      (s s2 : DebugSession) (rep : UIUXReport),
      generateUIUXReport hexFn appName testUrl s = Except.ok (s2, rep) →
      s2.currentUrl = s.currentUrl ∧
      s2.lastScreenshotPath = s.lastScreenshotPath ∧
      s2.debugHistory = s.debugHistory ∧
      s2.elements = s.elements ∧
      ∃ ar, s.lastAnalysisResult = some ar ∧
        s2.lastAnalysisResult = some (analysisAfterReport hexFn ar) ∧
        rep.elements = (analysisAfterReport hexFn ar).elements ∧
        (analysisAfterReport hexFn ar).elements.map
            (fun e => { e with contrastRatio := none }) =
          ar.elements.map (fun e => { e with contrastRatio := none }) := by
  intro hexFn appName testUrl s s2 rep h
  cases hscr : s.lastScreenshotPath with
  | none =>
    unfold generateUIUXReport at h
    rw [hscr] at h
    exact absurd h (by simp)
  | some p =>
    cases har : s.lastAnalysisResult with
    | none =>
      unfold generateUIUXReport at h
      rw [hscr, har] at h
      exact absurd h (by simp)
    | some ar =>
      rw [generateUIUXReport_ok hexFn appName testUrl s p ar hscr har] at h
      simp only [Except.ok.injEq, Prod.mk.injEq] at h
      obtain ⟨hs2, hrep⟩ := h
      subst hs2
      subst hrep
      refine ⟨rfl, hscr, rfl, rfl, ar, rfl, rfl, rfl, ?_⟩
      unfold analysisAfterReport annotateElements
      rw [List.map_map]
      rfl

def c2El : UIElement :=
  { id := JsNum.int 1, type := "Text", geometry := {},
    typography := some { color := some "#ffffff" },
    appearance := some { backgroundColor := some "#000000" },
    state := "active", contrastRatio := none }

def c2ElAfter : UIElement :=
  { id := JsNum.int 1, type := "Text", geometry := {},
    typography := some { color := some "#ffffff" },
    appearance := some { backgroundColor := some "#000000" },
    state := "active", contrastRatio := some 21 }

def c2Analysis : AnalysisResult :=
  { description := "d", elements := [c2El] }

def c2Session : DebugSession :=
  { currentUrl := some "http://x", lastScreenshotPath := some "/tmp/s.png",
    debugHistory := ["step"], elements := [c2El], lastAnalysisResult := some c2Analysis }

def c2Pal : DerivedPalette :=
  { Backgrounds := ["#000000"], TextColors := ["#ffffff"], AccentColors := [] }

lemma contrastFor_own_white_black (dflt : Option String) (el : UIElement)
    (hfg : el.typography.bind (·.color) = some "#ffffff")
    (hbg : el.appearance.bind (·.backgroundColor) = some "#000000") :
    contrastFor wcagHexRatioR dflt el = some 21 := by
  unfold contrastFor
  rw [hfg, hbg]
  show (match (some "#ffffff" : Option String),
      (if ¬ jsTruthy (some "#000000") ∧ jsTruthy dflt
       then dflt else (some "#000000" : Option String)) with
    | some f, some b => if f ≠ "" ∧ b ≠ "" then ratioOrNull (wcagHexRatioR f b) else none
    | _, _ => none) = some 21
  rw [if_neg (by simp [jsTruthy])]
  show (if ("#ffffff" : String) ≠ "" ∧ ("#000000" : String) ≠ ""
        then ratioOrNull (wcagHexRatioR "#ffffff" "#000000") else none) = some 21
  rw [if_pos (by constructor <;> decide)]
  exact ratioOrNull_21

/-- C2 counterexample: on a session holding one cached element with a valid
foreground and background, the report step succeeds but returns a session
whose stored analysis differs from the one stored before the call — the
cached element record has been mutated with a contrast ratio. -/
theorem claim_C2_counterexample :
    generateUIUXReport wcagHexRatioR "" "http://x" c2Session =
      Except.ok (sessionAfterReport wcagHexRatioR c2Session c2Analysis,
                 reportOf wcagHexRatioR "" "http://x" "/tmp/s.png" c2Analysis) ∧
    (sessionAfterReport wcagHexRatioR c2Session c2Analysis).lastAnalysisResult ≠
      c2Session.lastAnalysisResult := by
  have hdark : colorIsBackground "#000000" = true :=
    colorIsBackground_true_eval _ 0 0 0 0 (by decide)
      (by push_cast; exact lumDouble_zero) (by norm_num)
  have hlight : colorIsBackground "#ffffff" = false :=
    colorIsBackground_false_eval _ 255 255 255 ((9007199254740991 : ℚ) / 9007199254740992)
      (by decide) (by push_cast; exact lumDouble_white) (by norm_num)
  have hpal : derivedColorPalette c2Analysis.elements = c2Pal := by
    show derivedColorPalette [c2El] = c2Pal
    rw [derivedColorPalette_spec]
    have hcoll : collectColors [c2El] = ["#000000", "#ffffff"] := by decide
    rw [hcoll]
    simp [hdark, hlight, addUnique]
    rfl
  have hann : annotateElements wcagHexRatioR (derivedColorPalette c2Analysis.elements)
      c2Analysis.elements = [c2ElAfter] := by
    rw [hpal]
    show annotateElements wcagHexRatioR c2Pal [c2El] = [c2ElAfter]
    unfold annotateElements
    simp only [List.map]
    rw [contrastFor_own_white_black (defaultBgOf c2Pal) c2El rfl rfl]
    rfl
  refine ⟨generateUIUXReport_ok _ _ _ _ _ _ rfl rfl, ?_⟩
  intro hEq
  have h1 : analysisAfterReport wcagHexRatioR c2Analysis = c2Analysis :=
    Option.some.inj hEq
  have h3 : (analysisAfterReport wcagHexRatioR c2Analysis).elements =
      c2Analysis.elements := congrArg AnalysisResult.elements h1
  unfold analysisAfterReport at h3
  simp only at h3
  rw [hann] at h3
  exact absurd h3 (by decide)

def c2WAnalysis : AnalysisResult := { description := "d", elements := [] }

def c2WSession : DebugSession :=
  { lastScreenshotPath := some "p", lastAnalysisResult := some c2WAnalysis }

/-- Witness for C2: the amended theorem applied at a concrete successful
report run. -/
theorem claim_C2_witness :
    generateUIUXReport (fun _ _ => none) "" "u" c2WSession =
      Except.ok (sessionAfterReport (fun _ _ => none) c2WSession c2WAnalysis,
                 reportOf (fun _ _ => none) "" "u" "p" c2WAnalysis) ∧
    (sessionAfterReport (fun _ _ => none) c2WSession c2WAnalysis).currentUrl =
      c2WSession.currentUrl := by
  have h := generateUIUXReport_ok (fun _ _ => none) "" "u" c2WSession "p" c2WAnalysis rfl rfl
  exact ⟨h, (claim_C2_report_mutation _ _ _ _ _ _ h).1⟩
